import Mathlib

/-!
Verification development for the Fitbit-to-Garmin CSV converter
(src/convert_fitbit_to_garmin.py).

The Python source is shallowly embedded: strings are lists of characters,
CSV/JSON records are association lists of string fields, Python floats are
modelled as rationals, and code that can raise exceptions is modelled with
`Except`.  The per-function embeddings below carry the name of the Python
function they translate.
-/

set_option autoImplicit false
set_option maxRecDepth 10000

deriving instance DecidableEq for Except

/-- Strings are modelled as lists of characters. -/
abbrev Str := List Char

/-- Convenience conversion from Lean string literals. -/
def str (s : String) : Str := s.toList

/-- Characters stripped by Python str.strip (whitespace). -/
def isSpaceChar (c : Char) : Bool :=
  c == ' ' || c == '\t' || c == '\n' || c == '\r' || c == '\x0b' || c == '\x0c'

/-- Python str.strip(): drop whitespace from both ends. -/
def pyStrip (cs : Str) : Str :=
  ((cs.dropWhile isSpaceChar).reverse.dropWhile isSpaceChar).reverse

/-- Value of a decimal digit character. -/
def digitVal (c : Char) : Option Nat :=
  if c.isDigit then some (c.toNat - 48) else none

/-- Accumulating decimal parser over an all-digit character list. -/
def parseDigitsAux : Str → Nat → Option Nat
  | [], acc => some acc
  | c :: cs, acc =>
    match digitVal c with
    | some v => parseDigitsAux cs (10 * acc + v)
    | none => none

/-- Parse a nonempty all-digit character list as a natural number. -/
def parseNat (cs : Str) : Option Nat :=
  if cs.isEmpty then none else parseDigitsAux cs 0

/-- Python int(str): optional sign followed by digits; None models ValueError. -/
def pyInt (s : Str) : Option Int :=
  match pyStrip s with
  | [] => none
  | c :: rest =>
    if c = '+' then (parseNat rest).map Int.ofNat
    else if c = '-' then (parseNat rest).map (fun n => -(n : Int))
    else (parseNat (c :: rest)).map Int.ofNat

/-- Euclid's algorithm with an explicit structural fuel argument, so that
kernel reduction can evaluate it (Nat.gcd is defined by well-founded
recursion and gets stuck under `decide`). -/
def gcdFuel : Nat → Nat → Nat → Nat
  | 0, _, b => b
  | fuel + 1, a, b => if a = 0 then b else gcdFuel fuel (b % a) a

/-- Greatest common divisor (fuel a+1 always suffices). -/
def natGcd (a b : Nat) : Nat := gcdFuel (a + 1) a b

/-- Exact rational number in lowest terms with positive denominator.  It
models Python float values exactly on the decimal inputs this converter
handles; a bespoke type (rather than ℚ) keeps every operation reducible by
the kernel, so concrete runs of the embedded program evaluate by decide. -/
structure Frac where
  num : Int
  den : Nat
deriving DecidableEq

/-- Normalizing constructor (callers never pass d = 0). -/
def Frac.mk' (n : Int) (d : Nat) : Frac :=
  if d = 0 then ⟨0, 1⟩
  else
    let g := natGcd n.natAbs d
    if g = 0 then ⟨0, 1⟩ else ⟨n / (g : Int), d / g⟩

instance (n : Nat) : OfNat Frac n := ⟨⟨(n : Int), 1⟩⟩
instance : NatCast Frac := ⟨fun n => ⟨(n : Int), 1⟩⟩
instance : IntCast Frac := ⟨fun i => ⟨i, 1⟩⟩
instance : Neg Frac := ⟨fun a => ⟨-a.num, a.den⟩⟩
instance : Add Frac :=
  ⟨fun a b => Frac.mk' (a.num * (b.den : Int) + b.num * (a.den : Int)) (a.den * b.den)⟩
instance : Sub Frac :=
  ⟨fun a b => Frac.mk' (a.num * (b.den : Int) - b.num * (a.den : Int)) (a.den * b.den)⟩
instance : Mul Frac := ⟨fun a b => Frac.mk' (a.num * b.num) (a.den * b.den)⟩
instance : Div Frac :=
  ⟨fun a b =>
    if b.num < 0 then Frac.mk' (-(a.num * (b.den : Int))) (a.den * b.num.natAbs)
    else Frac.mk' (a.num * (b.den : Int)) (a.den * b.num.natAbs)⟩

def Frac.lt (a b : Frac) : Prop := a.num * (b.den : Int) < b.num * (a.den : Int)

instance : LT Frac := ⟨Frac.lt⟩

instance (a b : Frac) : Decidable (a < b) :=
  inferInstanceAs (Decidable (a.num * (b.den : Int) < b.num * (a.den : Int)))

/-- Mathematical floor of an exact rational (Int.fdiv is floor division). -/
def Frac.floor (a : Frac) : Int := Int.fdiv a.num (a.den : Int)

/-- Python float(str) restricted to the plain decimal forms the converter
receives: optional sign, digits, optional fractional part.  None models
ValueError on non-numeric text. -/
def pyFloat (s : Str) : Option Frac :=
  let cs := pyStrip s
  let sgn : Frac × Str :=
    match cs with
    | [] => (1, [])
    | c :: r =>
      if c = '+' then (1, r) else if c = '-' then (-1, r) else (1, c :: r)
  let ip := sgn.2.takeWhile Char.isDigit
  match sgn.2.dropWhile Char.isDigit with
  | [] =>
    match ip with
    | [] => none
    | _ => (parseNat ip).map (fun n => sgn.1 * (n : Frac))
  | c :: fr =>
    if c = '.' then
      if fr.all Char.isDigit && !(ip.isEmpty && fr.isEmpty) then
        let a := (parseNat ip).getD 0
        let b := (parseNat fr).getD 0
        some (sgn.1 * ((a : Frac) + (b : Frac) / ((10 ^ fr.length : Nat) : Frac)))
      else none
    else none

/-- Calendar date (as produced by Python datetime.date). -/
structure Date where
  y : Nat
  m : Nat
  d : Nat
deriving DecidableEq

/-- Order key for dates; for parsed dates (month ≤ 12, day ≤ 31) this order
coincides with Python date comparison and with the lexicographic order of
the YYYY-MM-DD strings the code uses as dict keys. -/
def Date.key (a : Date) : Nat := a.y * 10000 + a.m * 100 + a.d

def isLeap (y : Nat) : Bool := (y % 4 == 0 && y % 100 != 0) || y % 400 == 0

def daysInMonth (y m : Nat) : Nat :=
  if m == 2 then (if isLeap y then 29 else 28)
  else if m == 4 || m == 6 || m == 9 || m == 11 then 30
  else 31

/-- Validity check performed by Python's datetime constructor. -/
def validDate (y m d : Nat) : Bool :=
  decide (1 ≤ m ∧ m ≤ 12 ∧ 1 ≤ d ∧ d ≤ daysInMonth y m)

/-- Timezone-aware or naive instant (Python datetime).  offMin is the UTC
offset in minutes; none models a naive datetime. -/
structure DateTime where
  date : Date
  hh : Nat
  mi : Nat
  ss : Nat
  offMin : Option Int
deriving DecidableEq

/-- Parse exactly two digits. -/
def parse2 : Str → Option (Nat × Str)
  | c1 :: c2 :: rest =>
    match digitVal c1, digitVal c2 with
    | some a, some b => some (10 * a + b, rest)
    | _, _ => none
  | _ => none

/-- Parse exactly four digits. -/
def parse4 (cs : Str) : Option (Nat × Str) :=
  (parse2 cs).bind fun p =>
  (parse2 p.2).map fun q => (100 * p.1 + q.1, q.2)

def expectChar (c : Char) : Str → Option Str
  | x :: rest => if x = c then some rest else none
  | [] => none

/-- ISO date prefix YYYY-MM-DD of datetime.fromisoformat. -/
def parseDatePart (cs : Str) : Option (Date × Str) :=
  (parse4 cs).bind fun y =>
  (expectChar '-' y.2).bind fun r2 =>
  (parse2 r2).bind fun mo =>
  (expectChar '-' mo.2).bind fun r4 =>
  (parse2 r4).bind fun d =>
  if validDate y.1 mo.1 d.1 then some (⟨y.1, mo.1, d.1⟩, d.2) else none

/-- ISO time part HH[:MM[:SS]] of datetime.fromisoformat (fractional seconds
do not occur in this data set and are not modelled). -/
def parseTimePart (cs : Str) : Option (Nat × Nat × Nat × Str) :=
  (parse2 cs).bind fun h =>
  match h.2 with
  | [] => some (h.1, 0, 0, [])
  | c :: r2 =>
    if c = ':' then
      (parse2 r2).bind fun mi =>
      (match mi.2 with
       | [] => some (h.1, mi.1, 0, [])
       | c2 :: r4 =>
         if c2 = ':' then (parse2 r4).bind fun s => some (h.1, mi.1, s.1, s.2)
         else some (h.1, mi.1, 0, c2 :: r4))
    else some (h.1, 0, 0, c :: r2)

/-- Offset digits after the sign: HH, HH:MM or HHMM (Python ≥ 3.11). -/
def parseOffMinutes (cs : Str) : Option Int :=
  ((parse2 cs).bind fun h =>
   match h.2 with
   | [] => some (h.1, 0)
   | c :: r2 =>
     if c = ':' then (parse2 r2).bind fun mi => if mi.2 = [] then some (h.1, mi.1) else none
     else (parse2 (c :: r2)).bind fun mi => if mi.2 = [] then some (h.1, mi.1) else none
  ).bind fun p =>
  if p.1 ≤ 23 ∧ p.2 ≤ 59 then some ((p.1 : Int) * 60 + p.2) else none

/-- Trailing timezone of datetime.fromisoformat: empty (naive) or ±offset. -/
def parseTzPart (cs : Str) : Option (Option Int) :=
  match cs with
  | [] => some none
  | c :: rest =>
    if c = '+' then (parseOffMinutes rest).map (fun m => some m)
    else if c = '-' then (parseOffMinutes rest).map (fun m => some (-m))
    else none

/-- datetime.fromisoformat (Python ≥ 3.11 semantics over the forms this
converter feeds it: YYYY-MM-DD[<sep>HH[:MM[:SS]][±HH[:]MM]]). -/
def fromisoformat (cs : Str) : Option DateTime :=
  (parseDatePart cs).bind fun dp =>
  match dp.2 with
  | [] => some ⟨dp.1, 0, 0, 0, none⟩
  | _sep :: rest2 =>
    (parseTimePart rest2).bind fun t =>
    if t.1 ≤ 23 ∧ t.2.1 ≤ 59 ∧ t.2.2.1 ≤ 59 then
      (parseTzPart t.2.2.2).map (fun off => ⟨dp.1, t.1, t.2.1, t.2.2.1, off⟩)
    else none

/-- datetime.strptime(s, m) for the pattern of four-digit year, dash, 1-2
digit month, dash, 1-2 digit day, with datetime range validation. -/
def strptimeYmd (cs : Str) : Option Date :=
  let ys := cs.takeWhile Char.isDigit
  match cs.dropWhile Char.isDigit with
  | [] => none
  | c1 :: r2 =>
    if c1 = '-' then
      let ms := r2.takeWhile Char.isDigit
      match r2.dropWhile Char.isDigit with
      | [] => none
      | c2 :: r4 =>
        if c2 = '-' then
          let ds := r4.takeWhile Char.isDigit
          if r4.dropWhile Char.isDigit = [] ∧ ys.length = 4 ∧ 1 ≤ ms.length ∧ ms.length ≤ 2
              ∧ 1 ≤ ds.length ∧ ds.length ≤ 2 then
            match parseNat ys, parseNat ms, parseNat ds with
            | some y, some mo, some d => if validDate y mo d then some ⟨y, mo, d⟩ else none
            | _, _, _ => none
          else none
        else none
    else none

/-- datetime.strptime for the US slash pattern: 1-2 digit month, slash,
1-2 digit day, slash, exactly two-digit year; two-digit years 00-68 map to
2000-2068 and 69-99 map to 1969-1999 (POSIX rule used by CPython). -/
def strptimeMdy (cs : Str) : Option Date :=
  let ms := cs.takeWhile Char.isDigit
  match cs.dropWhile Char.isDigit with
  | [] => none
  | c1 :: r2 =>
    if c1 = '/' then
      let ds := r2.takeWhile Char.isDigit
      match r2.dropWhile Char.isDigit with
      | [] => none
      | c2 :: r4 =>
        if c2 = '/' then
          let ys := r4.takeWhile Char.isDigit
          if r4.dropWhile Char.isDigit = [] ∧ ys.length = 2 ∧ 1 ≤ ms.length ∧ ms.length ≤ 2
              ∧ 1 ≤ ds.length ∧ ds.length ≤ 2 then
            match parseNat ms, parseNat ds, parseNat ys with
            | some mo, some d, some y2 =>
              let y := if y2 ≤ 68 then 2000 + y2 else 1900 + y2
              if validDate y mo d then some ⟨y, mo, d⟩ else none
            | _, _, _ => none
          else none
        else none
    else none

/-- Membership test used to model Python's `c in s` on strings. -/
def hasChar (x : Char) (cs : Str) : Bool := cs.any (fun c => c == x)

/-- Python s.replace of the letter Z by the zero-offset suffix. -/
def replaceZ : Str → Str
  | [] => []
  | c :: rest =>
    if c = 'Z' then '+' :: '0' :: '0' :: ':' :: '0' :: '0' :: replaceZ rest
    else c :: replaceZ rest

/-- parse_date from the source: timestamp branch, ISO branch, US-slash
branch, then a final general ISO fallback; None on any parse failure. -/
def parse_date (s : Str) : Option Date :=
  let cs := pyStrip s
  if hasChar 'T' cs then (fromisoformat (replaceZ cs)).map DateTime.date
  else
    match strptimeYmd cs with
    | some d => some d
    | none =>
      match strptimeMdy cs with
      | some d => some d
      | none => (fromisoformat cs).map DateTime.date

/-- Python s.replace(space, T-letter, 1): replace only the first space. -/
def replaceFirstSpaceT : Str → Str
  | [] => []
  | c :: rest => if c = ' ' then 'T' :: rest else c :: replaceFirstSpaceT rest

/-- Python s.rsplit at the last occurrence of the separator, returning the
part before and after it; none when the separator does not occur. -/
def breakLast (sep : Char) (cs : Str) : Option (Str × Str) :=
  let revd := cs.reverse
  match revd.dropWhile (fun c => !(c == sep)) with
  | _ :: baseRev => some (baseRev.reverse, (revd.takeWhile (fun c => !(c == sep))).reverse)
  | [] => none

/-- String rewriting performed by parse_sleep_datetime before delegating to
fromisoformat: insert a colon into a plus-sign 4-digit offset and replace
the first space by the T separator. -/
def normalizeSleepStr (cs : Str) : Str :=
  if hasChar '+' cs && !hasChar 'T' cs then
    match breakLast '+' cs with
    | some (base, tz) =>
      let cs2 := if tz.length = 4 then base ++ '+' :: (tz.take 2 ++ ':' :: tz.drop 2) else cs
      replaceFirstSpaceT cs2
    | none => cs
  else if !hasChar 'T' cs && !hasChar '+' cs then replaceFirstSpaceT cs
  else cs

/-- parse_sleep_datetime from the source. -/
def parse_sleep_datetime (s : Str) : Option DateTime :=
  fromisoformat (replaceZ (normalizeSleepStr (pyStrip s)))

/-- Python int() truncation of a float toward zero. -/
def pyTrunc (q : Frac) : Int := if q < 0 then -(Frac.floor (-q)) else Frac.floor q

/-- Python round() to an integer: round half to even. -/
def pyRound (q : Frac) : Int :=
  let f := Frac.floor q
  if q - f < 1/2 then f
  else if (1 : Frac)/2 < q - (f : Frac) then f + 1
  else if f % 2 = 0 then f else f + 1

/-- Python round(x, nd). -/
def roundTo (nd : Nat) (q : Frac) : Frac :=
  ((pyRound (q * ((10 ^ nd : Nat) : Frac)) : Frac)) / ((10 ^ nd : Nat) : Frac)

/-- round(weight_lbs * 0.453592, 1) from generate_body_csv. -/
def weightLbsToKg (lbs : Frac) : Frac := roundTo 1 (lbs * (453592 / 1000000))

/-- round(weight_g / 1000, 1) from the fallback branch of generate_body_csv. -/
def gramsToKg (g : Frac) : Frac := roundTo 1 (g / 1000)

/-- round(daily_distance / 1000, 2) from generate_activities_csv. -/
def metersToKm (m : Frac) : Frac := roundTo 2 (m / 1000)

/-- Association-list lookup (Python dict access). -/
def alookup {α β : Type} [DecidableEq α] (k : α) : List (α × β) → Option β
  | [] => none
  | p :: rest => if p.1 = k then some p.2 else alookup k rest

/-- Python dict assignment: overwrite in place or append a new key. -/
def upsert {α β : Type} [DecidableEq α] (k : α) (v : β) : List (α × β) → List (α × β)
  | [] => [(k, v)]
  | p :: rest => if p.1 = k then (k, v) :: rest else p :: upsert k v rest

/-- Python defaultdict accumulation m[k] += v. -/
def addTo {α β : Type} [DecidableEq α] [Add β] (k : α) (v : β) : List (α × β) → List (α × β)
  | [] => [(k, v)]
  | p :: rest => if p.1 = k then (p.1, p.2 + v) :: rest else p :: addTo k v rest

/-- A CSV row / JSON object: field name to field text (numeric JSON values
are modelled by their literal text). -/
abbrev Row := List (Str × Str)

def rowGet (r : Row) (k : Str) : Option Str := alookup k r

/-- Python row.get(k, default-string). -/
def rowGetS (r : Row) (k : Str) (dflt : Str) : Str := (rowGet r k).getD dflt

/-- Python float(row.get(k, 0)): missing field gives 0.0, a malformed field
gives none (models the ValueError). -/
def getFloat (r : Row) (k : Str) : Option Frac :=
  match rowGet r k with
  | some s => pyFloat s
  | none => some 0

/-- Inclusive date window of the converter. -/
structure Window where
  start_date : Date
  end_date : Date
deriving DecidableEq

/-- self.start_date <= d <= self.end_date. -/
def inWindow (w : Window) (d : Date) : Bool :=
  decide (w.start_date.key ≤ d.key ∧ d.key ≤ w.end_date.key)

/-- Run a per-row step under the per-file try/except of the source: an
exception (error value carries the state already mutated) aborts the rest
of the file but the run keeps the accumulator built so far. -/
def runRows {α : Type} (step : α → Row → Except α α) (acc : α) : List Row → α
  | [] => acc
  | r :: rs =>
    match step acc r with
    | .ok a => runRows step a rs
    | .error a => a

/-- Stable insertion preserving the relative order of earlier elements
(models the stability of Python sorted). -/
def insertBy {α : Type} (le : α → α → Bool) (x : α) : List α → List α
  | [] => [x]
  | y :: ys => if le y x then y :: insertBy le x ys else x :: y :: ys

def sortBy {α : Type} (le : α → α → Bool) (l : List α) : List α :=
  l.foldl (fun acc x => insertBy le x acc) []

def dateLe (a b : Date) : Bool := decide (a.key ≤ b.key)

/-- Python string comparison (code-point lexicographic). -/
def strLe : Str → Str → Bool
  | [], _ => true
  | _ :: _, [] => false
  | a :: as, b :: bs =>
    if a.val < b.val then true else if b.val < a.val then false else strLe as bs

/-- Body CSV entry: weight kg, BMI, fat percent. -/
structure BodyVal where
  weight : Frac
  bmi : Frac
  fat : Frac
deriving DecidableEq

abbrev BodyMap := List (Date × BodyVal)

/-- One entry of a Global Export Data weight JSON file
(generate_body_csv, source 1). -/
def readWeightEntry (w : Window) (acc : BodyMap) (entry : Row) : Except BodyMap BodyMap :=
  match parse_date (rowGetS entry (str "date") []) with
  | some d =>
    if inWindow w d then
      match getFloat entry (str "weight") with
      | some lbs =>
        match getFloat entry (str "bmi") with
        | some bmi =>
          match getFloat entry (str "fat") with
          | some fat =>
            .ok (upsert d ⟨weightLbsToKg lbs, roundTo 1 bmi, roundTo 1 fat⟩ acc)
          | none => .error acc
        | none => .error acc
      | none => .error acc
    else .ok acc
  | none => .ok acc

/-- All weight-*.json files, each under its own try/except. -/
def richAcc (w : Window) (files : List (List Row)) : BodyMap :=
  files.foldl (fun acc rows => runRows (readWeightEntry w) acc rows) []

/-- Fallback weight.csv reader (generate_body_csv, lines 121-137).  This
loop has no try/except in the source, so a ValueError from float()
propagates: the whole result is an error. -/
def readFallback (w : Window) : BodyMap → List Row → Except Unit BodyMap
  | acc, [] => .ok acc
  | acc, r :: rs =>
    match parse_date (rowGetS r (str "timestamp") []) with
    | some d =>
      if inWindow w d then
        match getFloat r (str "weight grams") with
        | some g => readFallback w (upsert d ⟨gramsToKg g, 0, 0⟩ acc) rs
        | none => .error ()
      else readFallback w acc rs
    | none => readFallback w acc rs

/-- Sources 1 and 2 of generate_body_csv: the fallback CSV is consulted
only when the JSON source produced an empty dict. -/
def bodyAfterFallback (w : Window) (jsonFiles : List (List Row)) (fallbackRows : List Row) :
    Except Unit BodyMap :=
  let b := richAcc w jsonFiles
  if b.isEmpty then readFallback w b fallbackRows else .ok b

/-- One row of a body_fat_*.csv enrichment file. -/
def enrichStep (w : Window) (acc : BodyMap) (row : Row) : Except BodyMap BodyMap :=
  match parse_date (rowGetS row (str "timestamp") []) with
  | some d =>
    if inWindow w d then
      match getFloat row (str "body fat percentage") with
      | some fat =>
        match alookup d acc with
        | some v => .ok (upsert d { v with fat := roundTo 1 fat } acc)
        | none => .ok (upsert d ⟨0, 0, roundTo 1 fat⟩ acc)
      | none => .error acc
    else .ok acc
  | none => .ok acc

/-- Full body_data accumulator of generate_body_csv. -/
def bodyFull (w : Window) (jsonFiles : List (List Row)) (fallbackRows : List Row)
    (bfFiles : List (List Row)) : Except Unit BodyMap :=
  match bodyAfterFallback w jsonFiles fallbackRows with
  | .ok b => .ok (bfFiles.foldl (fun acc rows => runRows (enrichStep w) acc rows) b)
  | .error e => .error e

/-- Emitted body rows, date-ascending (generate_body_csv, write loop). -/
def bodyRows (w : Window) (jsonFiles : List (List Row)) (fallbackRows : List Row)
    (bfFiles : List (List Row)) : Except Unit BodyMap :=
  (bodyFull w jsonFiles fallbackRows bfFiles).map (sortBy (fun a b => dateLe a.1 b.1))

abbrev QMap := List (Date × Frac)
abbrev IMap := List (Date × Int)

/-- One row of _aggregate_csv: filter by window, cast, fold into the daily
defaultdict; castInt models the int(float(x)) lambda. -/
def aggRow (w : Window) (valueCol : Str) (castInt : Bool) (acc : QMap) (row : Row) :
    Except QMap QMap :=
  match parse_date (rowGetS row (str "timestamp") []) with
  | some d =>
    if inWindow w d then
      match getFloat row valueCol with
      | some q => .ok (addTo d (if castInt then ((pyTrunc q : Int) : Frac) else q) acc)
      | none => .error acc
    else .ok acc
  | none => .ok acc

/-- One file of _aggregate_csv (its try/except). -/
def aggFile (w : Window) (valueCol : Str) (castInt : Bool) (acc : QMap) (rows : List Row) : QMap :=
  runRows (aggRow w valueCol castInt) acc rows

/-- _aggregate_csv over the sorted file list. -/
def aggregateCsv (w : Window) (valueCol : Str) (castInt : Bool) (files : List (List Row)) : QMap :=
  files.foldl (aggFile w valueCol castInt) []

/-- The three active-minutes accumulators. -/
structure AMins where
  light : IMap
  fairly : IMap
  very : IMap
deriving DecidableEq

/-- One row of the active_minutes_*.csv loop; the three columns are cast
and added one after the other, so an error keeps the updates already made. -/
def activeMinutesStep (w : Window) (acc : AMins) (row : Row) : Except AMins AMins :=
  match parse_date (rowGetS row (str "timestamp") []) with
  | some d =>
    if inWindow w d then
      match getFloat row (str "light") with
      | some l =>
        let acc1 := { acc with light := addTo d (pyTrunc l) acc.light }
        match getFloat row (str "moderate") with
        | some m =>
          let acc2 := { acc1 with fairly := addTo d (pyTrunc m) acc1.fairly }
          match getFloat row (str "very") with
          | some v => .ok { acc2 with very := addTo d (pyTrunc v) acc2.very }
          | none => .error acc2
        | none => .error acc1
      | none => .error acc
    else .ok acc
  | none => .ok acc

/-- One row of the activity_level_*.csv sedentary-minutes loop. -/
def sedentaryStep (w : Window) (acc : IMap) (row : Row) : Except IMap IMap :=
  match parse_date (rowGetS row (str "timestamp") []) with
  | some d =>
    if inWindow w d then
      if rowGetS row (str "level") [] = str "SEDENTARY" then .ok (addTo d 1 acc) else .ok acc
    else .ok acc
  | none => .ok acc

/-- act_cal = max(0, cal - 1500) if cal > 0 else 0. -/
def activityCalories (cal : Int) : Int := if 0 < cal then max 0 (cal - 1500) else 0

def lookupQ (m : QMap) (d : Date) : Frac := (alookup d m).getD 0
def lookupI (m : IMap) (d : Date) : Int := (alookup d m).getD 0

/-- One emitted activities row. -/
structure ActRow where
  date : Date
  cal : Int
  steps : Int
  distKm : Frac
  floors : Int
  sedentary : Int
  light : Int
  fairly : Int
  very : Int
  actCal : Int
deriving DecidableEq

/-- Row construction of generate_activities_csv (lines 247-259). -/
def mkActRow (steps cals dists floors : QMap) (sed light fairly very : IMap) (d : Date) : ActRow :=
  let cal := pyRound (lookupQ cals d)
  { date := d
    cal := cal
    steps := pyTrunc (lookupQ steps d)
    distKm := metersToKm (lookupQ dists d)
    floors := pyTrunc (lookupQ floors d)
    sedentary := lookupI sed d
    light := lookupI light d
    fairly := lookupI fairly d
    very := lookupI very d
    actCal := activityCalories cal }

/-- all_dates = sorted(set(steps keys + calories keys + distance keys)). -/
def allDates (steps cals dists : QMap) : List Date :=
  sortBy dateLe ((steps.map Prod.fst ++ cals.map Prod.fst ++ dists.map Prod.fst).dedup)

/-- The emitted activities table. -/
def activitiesRows (steps cals dists floors : QMap) (sed light fairly very : IMap) : List ActRow :=
  (allDates steps cals dists).map (mkActRow steps cals dists floors sed light fairly very)

/-- One sleep session as stored in the sleeps dict of generate_sleep_csv. -/
structure Session where
  start : Str
  ends : Str
  startDt : DateTime
  endDt : Option DateTime
  minutesAsleep : Int
  minutesAwake : Int
  minutesInPeriod : Int
  startOffset : Str
  endOffset : Str
deriving DecidableEq

/-- One row of a UserSleeps_*.csv file: sessions are keyed by sleep_id,
kept only when the parsed start date is in the window; the end timestamp is
parsed but its failure (none) does not discard the session here. -/
def sleepStep (w : Window) (acc : List (Str × Session)) (row : Row) :
    Except (List (Str × Session)) (List (Str × Session)) :=
  match parse_sleep_datetime (rowGetS row (str "sleep_start") []) with
  | some sdt =>
    if inWindow w sdt.date then
      match getFloat row (str "minutes_asleep") with
      | some ma =>
        match getFloat row (str "minutes_awake") with
        | some mw =>
          match getFloat row (str "minutes_in_sleep_period") with
          | some mp =>
            .ok (upsert (rowGetS row (str "sleep_id") [])
              { start := rowGetS row (str "sleep_start") []
                ends := rowGetS row (str "sleep_end") []
                startDt := sdt
                endDt := parse_sleep_datetime (rowGetS row (str "sleep_end") [])
                minutesAsleep := pyTrunc ma
                minutesAwake := pyTrunc mw
                minutesInPeriod := pyTrunc mp
                startOffset := rowGetS row (str "start_utc_offset") (str "+01:00")
                endOffset := rowGetS row (str "end_utc_offset") (str "+01:00") } acc)
          | none => .error acc
        | none => .error acc
      | none => .error acc
    else .ok acc
  | none => .ok acc

/-- The sleeps dict over all UserSleeps_*.csv files. -/
def buildSleeps (w : Window) (files : List (List Row)) : List (Str × Session) :=
  files.foldl (fun acc rows => runRows (sleepStep w) acc rows) []

/-- Per-session stage totals (minutes as rationals) and awakening count. -/
structure StageVal where
  rem : Frac
  light : Frac
  deep : Frac
  awakeCount : Int
deriving DecidableEq

def stageVal0 : StageVal := ⟨0, 0, 0, 0⟩

/-- defaultdict update of the sleep_stages dict. -/
def updateStage (k : Str) (f : StageVal → StageVal) :
    List (Str × StageVal) → List (Str × StageVal)
  | [] => [(k, f stageVal0)]
  | p :: rest => if p.1 = k then (p.1, f p.2) :: rest else p :: updateStage k f rest

/-- Days from 1970-01-01 of a civil date (standard era-based algorithm);
used to give datetimes a linear timeline like Python's. -/
def daysFromCivil (dt : Date) : Int :=
  let y : Int := if dt.m ≤ 2 then (dt.y : Int) - 1 else (dt.y : Int)
  let era : Int := (if 0 ≤ y then y else y - 399) / 400
  let yoe : Int := y - era * 400
  let mp : Int := ((dt.m : Int) + 9) % 12
  let doy : Int := (153 * mp + 2) / 5 + (dt.d : Int) - 1
  let doe : Int := yoe * 365 + yoe / 4 - yoe / 100 + doy
  era * 146097 + doe - 719468

/-- Wall-clock seconds of a datetime (what strftime displays). -/
def wallSecs (dt : DateTime) : Int :=
  daysFromCivil dt.date * 86400 + (dt.hh : Int) * 3600 + (dt.mi : Int) * 60 + (dt.ss : Int)

/-- Absolute seconds of an aware datetime (naive treated as zero offset;
the data this converter reads carries explicit offsets). -/
def utcSecs (dt : DateTime) : Int := wallSecs dt - 60 * dt.offMin.getD 0

/-- One row of a UserSleepStages_*.csv file: joined to sessions purely by
sleep_id; note there is no date-window test on the stage timestamps. -/
def stageStep (sleeps : List (Str × Session)) (acc : List (Str × StageVal)) (row : Row) :
    List (Str × StageVal) :=
  let sid := rowGetS row (str "sleep_id") []
  if (alookup sid sleeps).isSome then
    let ty := rowGetS row (str "sleep_stage_type") []
    match parse_sleep_datetime (rowGetS row (str "sleep_stage_start") []),
          parse_sleep_datetime (rowGetS row (str "sleep_stage_end") []) with
    | some s, some e =>
      let dur : Frac := (((utcSecs e - utcSecs s : Int)) : Frac) / 60
      if ty = str "REM" then updateStage sid (fun v => { v with rem := v.rem + dur }) acc
      else if ty = str "LIGHT" then updateStage sid (fun v => { v with light := v.light + dur }) acc
      else if ty = str "DEEP" then updateStage sid (fun v => { v with deep := v.deep + dur }) acc
      else if ty = str "AWAKE" then
        updateStage sid (fun v => { v with awakeCount := v.awakeCount + 1 }) acc
      else acc
    | _, _ => acc
  else acc

/-- The sleep_stages dict over all UserSleepStages_*.csv files. -/
def stagesAcc (sleeps : List (Str × Session)) (files : List (List Row)) :
    List (Str × StageVal) :=
  files.foldl (fun acc rows => rows.foldl (stageStep sleeps) acc) []

/-- int(offset_str.replace(colon, empty)[:-2]) with the ValueError fallback
to 0; the empty offset string is falsy and also gives 0. -/
def offsetHours (s : Str) : Int :=
  if s.isEmpty then 0
  else
    let noColon := s.filter (fun c => !(c == ':'))
    match pyInt (noColon.take (noColon.length - 2)) with
    | some n => n
    | none => 0

/-- One emitted sleep row; the two local times are kept as wall-clock
seconds (strftime prints their minute truncation). -/
structure SleepOut where
  startLocalSecs : Int
  endLocalSecs : Int
  minutesAsleep : Int
  minutesAwake : Int
  awakenings : Int
  timeInBed : Int
  rem : Int
  light : Int
  deep : Int
deriving DecidableEq

/-- Row construction of generate_sleep_csv (lines 335-354): local display
time is the stored wall clock plus the whole-hour part of the offset string. -/
def mkSleepOut (stages : List (Str × StageVal)) (sid : Str) (s : Session) (edt : DateTime) :
    SleepOut :=
  let st := (alookup sid stages).getD stageVal0
  { startLocalSecs := wallSecs s.startDt + 3600 * offsetHours s.startOffset
    endLocalSecs := wallSecs edt + 3600 * offsetHours s.endOffset
    minutesAsleep := s.minutesAsleep
    minutesAwake := s.minutesAwake
    awakenings := st.awakeCount
    timeInBed := s.minutesInPeriod
    rem := pyRound st.rem
    light := pyRound st.light
    deep := pyRound st.deep }

/-- The emitted sleep table: sessions sorted by raw start string; sessions
whose end failed to parse are skipped by the `if start_dt and end_dt` guard. -/
def emitRows (sleeps : List (Str × Session)) (stages : List (Str × StageVal)) : List SleepOut :=
  (sortBy (fun a b => strLe a.2.start b.2.start) sleeps).filterMap
    (fun p => (p.2.endDt).map (mkSleepOut stages p.1 p.2))

/-- One supplementary daily entry: date plus renamed pass-through fields. -/
structure SuppEntry where
  date : Date
  fields : List (Str × Str)
deriving DecidableEq

/-- One row of _read_daily_csv: window filter, then light renaming. -/
def readDailyRow (w : Window) (valueCols : List (Str × Str)) (acc : List SuppEntry) (row : Row) :
    Except (List SuppEntry) (List SuppEntry) :=
  match parse_date (rowGetS row (str "timestamp") []) with
  | some d =>
    if inWindow w d then
      .ok (acc ++ [⟨d, valueCols.map (fun kv => (kv.1, rowGetS row kv.2 []))⟩])
    else .ok acc
  | none => .ok acc

/-- _read_daily_csv over one file. -/
def readDailyCsv (w : Window) (valueCols : List (Str × Str)) (rows : List Row) : List SuppEntry :=
  runRows (readDailyRow w valueCols) [] rows

/-! Helper lemmas about the list machinery. -/

theorem mem_insertBy {α : Type} (le : α → α → Bool) (y x : α) (l : List α) :
    x ∈ insertBy le y l ↔ x = y ∨ x ∈ l := by
  induction l with
  | nil => simp [insertBy]
  | cons z zs ih =>
    simp only [insertBy]
    split
    · simp only [List.mem_cons, ih]
      tauto
    · simp [List.mem_cons]

theorem mem_sortBy {α : Type} (le : α → α → Bool) (l : List α) (x : α) :
    x ∈ sortBy le l ↔ x ∈ l := by
  suffices h : ∀ acc : List α,
      x ∈ l.foldl (fun acc y => insertBy le y acc) acc ↔ x ∈ acc ∨ x ∈ l by
    simpa [sortBy] using h []
  induction l with
  | nil => simp
  | cons z zs ih =>
    intro acc
    simp only [List.foldl_cons, ih, mem_insertBy, List.mem_cons]
    tauto

theorem mem_upsert {α β : Type} [DecidableEq α] (k : α) (v : β) (m : List (α × β))
    (p : α × β) : p ∈ upsert k v m → p = (k, v) ∨ p ∈ m := by
  induction m with
  | nil => simp [upsert]
  | cons q qs ih =>
    simp only [upsert]
    split
    · simp only [List.mem_cons]
      tauto
    · simp only [List.mem_cons]
      rintro (rfl | h)
      · tauto
      · rcases ih h with h' | h' <;> tauto

theorem runRows_skip {α : Type} (step : α → Row → Except α α) (r : Row)
    (hr : ∀ a, step a r = .ok a) (l1 l2 : List Row) (init : α) :
    runRows step init (l1 ++ r :: l2) = runRows step init (l1 ++ l2) := by
  induction l1 generalizing init with
  | nil => simp [runRows, hr]
  | cons x xs ih =>
    simp only [List.cons_append, runRows]
    cases step init x with
    | ok a => exact ih a
    | error a => rfl

/-! Concrete fixtures shared by several theorems. -/

/-- A window covering 2025, used by concrete fixtures. -/
def w2025 : Window := ⟨⟨2025, 1, 1⟩, ⟨2025, 12, 31⟩⟩

/-- C2: unit conversions are exact: pounds to kilograms multiply by 0.453592
then round to 1 decimal, grams to kilograms divide by 1000 then round to 1
decimal, meters to kilometers divide by 1000 then round to 2 decimals; on
the reference fixtures 150 lbs gives 68.0 kg, 68000 g gives 68.0 kg and
5000 m gives 5.00 km, also when run through the body accumulators and the
activities row builder that emit them. -/
theorem C2_unit_conversions :
    (∀ x : Frac, weightLbsToKg x = roundTo 1 (x * (453592 / 1000000))) ∧
    (∀ x : Frac, gramsToKg x = roundTo 1 (x / 1000)) ∧
    (∀ x : Frac, metersToKm x = roundTo 2 (x / 1000)) ∧
    weightLbsToKg 150 = 68 ∧ gramsToKg 68000 = 68 ∧ metersToKm 5000 = 5 ∧
    richAcc w2025 [[[(str "date", str "2025-06-01"), (str "weight", str "150")]]]
      = [(⟨2025, 6, 1⟩, ⟨68, 0, 0⟩)] ∧
    readFallback w2025 []
      [[(str "timestamp", str "2025-06-01"), (str "weight grams", str "68000")]]
      = .ok [(⟨2025, 6, 1⟩, ⟨68, 0, 0⟩)] ∧
    (mkActRow [] [] [(⟨2025, 6, 1⟩, 5000)] [] [] [] [] [] ⟨2025, 6, 1⟩).distKm = 5 := by
  refine ⟨fun x => rfl, fun x => rfl, fun x => rfl, by decide, by decide, by decide,
    by decide, ?_, by decide⟩
  decide

/-- C4: every daily activities row derives activity calories as
max(0, caloriesBurned - 1500) when caloriesBurned > 0 and 0 otherwise;
2200 gives 700, 1200 gives 0, 0 gives 0. -/
theorem C4_activity_calories :
    (∀ (steps cals dists floors : QMap) (sed light fairly very : IMap) (d : Date),
      (mkActRow steps cals dists floors sed light fairly very d).actCal
        = activityCalories (mkActRow steps cals dists floors sed light fairly very d).cal) ∧
    (∀ c : Int, activityCalories c = if 0 < c then max 0 (c - 1500) else 0) ∧
    activityCalories 2200 = 700 ∧ activityCalories 1200 = 0 ∧ activityCalories 0 = 0 := by
  exact ⟨fun _ _ _ _ _ _ _ _ _ => rfl, fun c => rfl, by decide, by decide, by decide⟩

/-- C9: the activities output has a row for a date iff that date appears in
the steps, calories or distance accumulators; dates present only in the
floors, active-minutes or sedentary accumulators produce no row. -/
theorem C9_activities_row_dates (steps cals dists floors : QMap) (sed light fairly very : IMap) :
    ((activitiesRows steps cals dists floors sed light fairly very).map ActRow.date
      = allDates steps cals dists) ∧
    (∀ d : Date,
      d ∈ (activitiesRows steps cals dists floors sed light fairly very).map ActRow.date
        ↔ (d ∈ steps.map Prod.fst ∨ d ∈ cals.map Prod.fst ∨ d ∈ dists.map Prod.fst)) := by
  have hmap : (activitiesRows steps cals dists floors sed light fairly very).map ActRow.date
      = allDates steps cals dists := by
    simp only [activitiesRows, List.map_map]
    exact List.map_id _
  refine ⟨hmap, fun d => ?_⟩
  rw [hmap]
  simp [allDates, mem_sortBy, List.mem_dedup, List.mem_append]

/-- Default full-range window of the converter (2000-01-01 to 2099-12-31). -/
def wAll : Window := ⟨⟨2000, 1, 1⟩, ⟨2099, 12, 31⟩⟩

/-- A fallback weight.csv row with a malformed numeric weight field. -/
def fbBadRow : Row := [(str "timestamp", str "2025-06-01"), (str "weight grams", str "abc")]

/-- A minute-level calories row with a malformed numeric field. -/
def aggBadRow : Row := [(str "timestamp", str "2025-06-01"), (str "calories", str "abc")]

/-- C3 (code bug witness): a malformed numeric field in the fallback
weight.csv aborts the entire body generation - the ValueError propagates
because that loop, alone among the readers, has no try/except - while the
same malformed field in an _aggregate_csv file or in a weight JSON file
only aborts that one file with a warning and the run continues, as the
spec demands for every path. -/
theorem C3_fallback_numeric_abort :
    readFallback wAll [] [fbBadRow] = .error () ∧
    bodyFull wAll [] [fbBadRow] [] = .error () ∧
    aggFile wAll (str "calories") false [(⟨2025, 5, 1⟩, 10)] [aggBadRow]
      = [(⟨2025, 5, 1⟩, 10)] ∧
    aggregateCsv wAll (str "calories") false
      [[aggBadRow], [[(str "timestamp", str "2025-06-02"), (str "calories", str "100")]]]
      = [(⟨2025, 6, 2⟩, 100)] ∧
    runRows (readWeightEntry wAll) []
      [[(str "date", str "2025-06-01"), (str "weight", str "abc")],
       [(str "date", str "2025-06-02"), (str "weight", str "150")]] = [] := by
  exact ⟨by decide, by decide, by decide, by decide, by decide⟩

/-- C10: a sleep row whose start parses inside the window but whose end
fails to parse is stored in the session map (and counted) yet emits no
output row, so the emitted row count is strictly below the session count. -/
theorem C10_unparseable_end_dropped (w : Window) (r : Row) (sdt : DateTime)
    (qa qw qp : Frac) (stages : List (Str × StageVal))
    (hs : parse_sleep_datetime (rowGetS r (str "sleep_start") []) = some sdt)
    (hw : inWindow w sdt.date = true)
    (he : parse_sleep_datetime (rowGetS r (str "sleep_end") []) = none)
    (ha : getFloat r (str "minutes_asleep") = some qa)
    (hb : getFloat r (str "minutes_awake") = some qw)
    (hc : getFloat r (str "minutes_in_sleep_period") = some qp) :
    (buildSleeps w [[r]]).length = 1 ∧
    (alookup (rowGetS r (str "sleep_id") []) (buildSleeps w [[r]])).isSome = true ∧
    emitRows (buildSleeps w [[r]]) stages = [] ∧
    (emitRows (buildSleeps w [[r]]) stages).length < (buildSleeps w [[r]]).length := by
  have hbuild : buildSleeps w [[r]]
      = [(rowGetS r (str "sleep_id") [],
          { start := rowGetS r (str "sleep_start") []
            ends := rowGetS r (str "sleep_end") []
            startDt := sdt
            endDt := none
            minutesAsleep := pyTrunc qa
            minutesAwake := pyTrunc qw
            minutesInPeriod := pyTrunc qp
            startOffset := rowGetS r (str "start_utc_offset") (str "+01:00")
            endOffset := rowGetS r (str "end_utc_offset") (str "+01:00") })] := by
    simp [buildSleeps, runRows, sleepStep, hs, hw, ha, hb, hc, he, upsert]
  rw [hbuild]
  have hemit : emitRows [(rowGetS r (str "sleep_id") [],
      { start := rowGetS r (str "sleep_start") []
        ends := rowGetS r (str "sleep_end") []
        startDt := sdt
        endDt := none
        minutesAsleep := pyTrunc qa
        minutesAwake := pyTrunc qw
        minutesInPeriod := pyTrunc qp
        startOffset := rowGetS r (str "start_utc_offset") (str "+01:00")
        endOffset := rowGetS r (str "end_utc_offset") (str "+01:00") })] stages = [] := by
    simp [emitRows, sortBy, insertBy, List.filterMap]
  refine ⟨rfl, by simp [alookup], hemit, ?_⟩
  rw [hemit]
  simp

/-- A UserSleeps row whose end timestamp cannot be parsed. -/
def sessRowBadEnd : Row :=
  [(str "sleep_id", str "s2"), (str "sleep_start", str "2025-01-01 22:00:00+0000"),
   (str "sleep_end", str "oops")]

theorem C10_unparseable_end_dropped_witness :
    (buildSleeps w2025 [[sessRowBadEnd]]).length = 1 ∧
    (alookup (rowGetS sessRowBadEnd (str "sleep_id") [])
      (buildSleeps w2025 [[sessRowBadEnd]])).isSome = true ∧
    emitRows (buildSleeps w2025 [[sessRowBadEnd]]) [] = [] ∧
    (emitRows (buildSleeps w2025 [[sessRowBadEnd]]) []).length
      < (buildSleeps w2025 [[sessRowBadEnd]]).length :=
  C10_unparseable_end_dropped w2025 sessRowBadEnd ⟨⟨2025, 1, 1⟩, 22, 0, 0, some 0⟩ 0 0 0 []
    (by decide) (by decide) (by decide) (by decide) (by decide) (by decide)

/-- Shape of every entry the fallback weight.csv reader can produce: grams
converted to kilograms, BMI and fat zero, for some in-window source row. -/
def fallbackEntryShape (w : Window) (fb : List Row) (p : Date × BodyVal) : Prop :=
  p.2.bmi = 0 ∧ p.2.fat = 0 ∧
  ∃ row ∈ fb, parse_date (rowGetS row (str "timestamp") []) = some p.1 ∧
    inWindow w p.1 = true ∧
    ∃ g, getFloat row (str "weight grams") = some g ∧ p.2.weight = gramsToKg g

theorem readFallback_shape (w : Window) (fb : List Row) :
    ∀ (acc0 out : BodyMap), readFallback w acc0 fb = .ok out →
      ∀ p ∈ out, p ∈ acc0 ∨ fallbackEntryShape w fb p := by
  induction fb with
  | nil =>
    intro acc0 out h p hp
    simp only [readFallback] at h
    cases h
    exact Or.inl hp
  | cons r rs ih =>
    intro acc0 out h p hp
    simp only [readFallback] at h
    have covar : fallbackEntryShape w rs p → fallbackEntryShape w (r :: rs) p := by
      rintro ⟨h1, h2, row, hrow, rest⟩
      exact ⟨h1, h2, row, List.mem_cons_of_mem _ hrow, rest⟩
    cases hd : parse_date (rowGetS r (str "timestamp") []) with
    | none =>
      simp only [hd] at h
      rcases ih _ _ h p hp with h' | h'
      · exact Or.inl h'
      · exact Or.inr (covar h')
    | some d =>
      simp only [hd] at h
      by_cases hw : inWindow w d = true
      · rw [if_pos hw] at h
        cases hg : getFloat r (str "weight grams") with
        | none => rw [hg] at h; cases h
        | some g =>
          simp only [hg] at h
          rcases ih _ _ h p hp with h' | h'
          · rcases mem_upsert _ _ _ _ h' with rfl | h''
            · exact Or.inr ⟨rfl, rfl, r, List.mem_cons_self r rs, hd, hw, g, hg, rfl⟩
            · exact Or.inl h''
          · exact Or.inr (covar h')
      · rw [if_neg hw] at h
        rcases ih _ _ h p hp with h' | h'
        · exact Or.inl h'
        · exact Or.inr (covar h')

/-- C1: if the richer JSON weight source yields at least one in-window
record, the fallback weight.csv contributes nothing to the body output
(the result is as if the fallback file were absent); the fallback is read
only when the richer source produced an empty map, in which case every
entry it produces is a weight converted from grams to kilograms with BMI
and fat set to zero. -/
theorem C1_body_source_precedence (w : Window) (json : List (List Row)) (fb : List Row)
    (bf : List (List Row)) :
    (richAcc w json ≠ [] →
      bodyFull w json fb bf = bodyFull w json [] bf ∧
      bodyRows w json fb bf = bodyRows w json [] bf) ∧
    (richAcc w json = [] →
      bodyAfterFallback w json fb = readFallback w [] fb ∧
      ∀ out, readFallback w [] fb = .ok out → ∀ p ∈ out, fallbackEntryShape w fb p) := by
  constructor
  · intro hne
    have hfb : ∀ fb' : List Row, bodyAfterFallback w json fb' = .ok (richAcc w json) := by
      intro fb'
      unfold bodyAfterFallback
      cases hr : richAcc w json with
      | nil => exact absurd hr hne
      | cons a l => simp
    have h1 : bodyFull w json fb bf = bodyFull w json [] bf := by
      unfold bodyFull
      rw [hfb fb, hfb []]
    exact ⟨h1, by unfold bodyRows; rw [h1]⟩
  · intro he
    have h0 : bodyAfterFallback w json fb = readFallback w [] fb := by
      unfold bodyAfterFallback
      rw [he]
      rfl
    refine ⟨h0, fun out hout p hp => ?_⟩
    rcases readFallback_shape w fb [] out hout p hp with h' | h'
    · cases h'
    · exact h'

/-- A weight JSON file with one in-window entry. -/
def jsonW : List (List Row) := [[[(str "date", str "2025-06-01"), (str "weight", str "150")]]]

/-- A fallback weight.csv with one in-window row in grams. -/
def fbW : List Row := [[(str "timestamp", str "2025-07-02"), (str "weight grams", str "68000")]]

theorem C1_body_source_precedence_witness :
    (bodyFull w2025 jsonW fbW [] = bodyFull w2025 jsonW [] [] ∧
      bodyRows w2025 jsonW fbW [] = bodyRows w2025 jsonW [] []) ∧
    (bodyAfterFallback w2025 [] fbW = readFallback w2025 [] fbW ∧
      fallbackEntryShape w2025 fbW (⟨2025, 7, 2⟩, ⟨68, 0, 0⟩)) := by
  refine ⟨(C1_body_source_precedence w2025 jsonW fbW []).1 (by decide), ?_, ?_⟩
  · exact ((C1_body_source_precedence w2025 [] fbW []).2 rfl).1
  · exact ((C1_body_source_precedence w2025 [] fbW []).2 rfl).2
      [(⟨2025, 7, 2⟩, ⟨68, 0, 0⟩)] (by decide) _ (List.mem_singleton.mpr rfl)

theorem readFallback_skip (w : Window) (r : Row) (d : Date)
    (hd : parse_date (rowGetS r (str "timestamp") []) = some d)
    (hw : inWindow w d = false) (l1 l2 : List Row) :
    ∀ acc, readFallback w acc (l1 ++ r :: l2) = readFallback w acc (l1 ++ l2) := by
  induction l1 with
  | nil =>
    intro acc
    simp only [List.nil_append, readFallback, hd, hw]
    simp
  | cons x xs ih =>
    intro acc
    simp only [List.cons_append, readFallback]
    cases parse_date (rowGetS x (str "timestamp") []) with
    | none => exact ih acc
    | some d' =>
      cases hw' : inWindow w d' with
      | false => simp only [hw', Bool.false_eq_true, if_false]; exact ih acc
      | true =>
        simp only [hw', if_true]
        cases getFloat x (str "weight grams") with
        | none => rfl
        | some g => exact ih _

/-- C6 (amended): a record whose parsed date lies strictly outside the
window contributes nothing to the date-filtered accumulators - the
minute-level aggregators, both body sources and the body-fat enrichment,
the active-minutes, sedentary and supplementary readers, and the sleep
session reader.  (Sleep-stage records are joined by session id with no
date filter, so the claim's universal form fails for them; see the
counterexample.) -/
theorem C6_window_omission (w : Window) (r : Row) (l1 l2 : List Row) :
    (∀ d, parse_date (rowGetS r (str "timestamp") []) = some d → inWindow w d = false →
      (∀ col castInt init,
        aggFile w col castInt init (l1 ++ r :: l2) = aggFile w col castInt init (l1 ++ l2)) ∧
      (∀ init, runRows (enrichStep w) init (l1 ++ r :: l2)
        = runRows (enrichStep w) init (l1 ++ l2)) ∧
      (∀ init, runRows (activeMinutesStep w) init (l1 ++ r :: l2)
        = runRows (activeMinutesStep w) init (l1 ++ l2)) ∧
      (∀ init, runRows (sedentaryStep w) init (l1 ++ r :: l2)
        = runRows (sedentaryStep w) init (l1 ++ l2)) ∧
      (∀ cols init, runRows (readDailyRow w cols) init (l1 ++ r :: l2)
        = runRows (readDailyRow w cols) init (l1 ++ l2)) ∧
      (∀ acc, readFallback w acc (l1 ++ r :: l2) = readFallback w acc (l1 ++ l2))) ∧
    (∀ d, parse_date (rowGetS r (str "date") []) = some d → inWindow w d = false →
      ∀ init, runRows (readWeightEntry w) init (l1 ++ r :: l2)
        = runRows (readWeightEntry w) init (l1 ++ l2)) ∧
    (∀ sdt, parse_sleep_datetime (rowGetS r (str "sleep_start") []) = some sdt →
      inWindow w sdt.date = false →
      ∀ init, runRows (sleepStep w) init (l1 ++ r :: l2)
        = runRows (sleepStep w) init (l1 ++ l2)) := by
  refine ⟨fun d hd hw => ⟨?_, ?_, ?_, ?_, ?_, ?_⟩, fun d hd hw => ?_, fun sdt hs hw => ?_⟩
  · intro col castInt init
    exact runRows_skip _ r (fun a => by simp [aggRow, hd, hw]) l1 l2 init
  · intro init
    exact runRows_skip _ r (fun a => by simp [enrichStep, hd, hw]) l1 l2 init
  · intro init
    exact runRows_skip _ r (fun a => by simp [activeMinutesStep, hd, hw]) l1 l2 init
  · intro init
    exact runRows_skip _ r (fun a => by simp [sedentaryStep, hd, hw]) l1 l2 init
  · intro cols init
    exact runRows_skip _ r (fun a => by simp [readDailyRow, hd, hw]) l1 l2 init
  · intro acc
    exact readFallback_skip w r d hd hw l1 l2 acc
  · intro init
    exact runRows_skip _ r (fun a => by simp [readWeightEntry, hd, hw]) l1 l2 init
  · intro init
    exact runRows_skip _ r (fun a => by simp [sleepStep, hs, hw]) l1 l2 init

/-- Window containing only 2025-01-01, for the stage counterexample. -/
def w6 : Window := ⟨⟨2025, 1, 1⟩, ⟨2025, 1, 1⟩⟩

/-- An in-window sleep session ending after midnight. -/
def sessRow0 : Row :=
  [(str "sleep_id", str "s1"), (str "sleep_start", str "2025-01-01 23:00:00+0000"),
   (str "sleep_end", str "2025-01-02 07:00:00+0000"), (str "minutes_asleep", str "400"),
   (str "minutes_awake", str "40"), (str "minutes_in_sleep_period", str "480"),
   (str "start_utc_offset", str "+00:00"), (str "end_utc_offset", str "+00:00")]

/-- A sleep-stage record whose timestamps fall on 2025-01-02, strictly
outside the window, joined to the in-window session s1. -/
def stageRow0 : Row :=
  [(str "sleep_id", str "s1"), (str "sleep_stage_type", str "LIGHT"),
   (str "sleep_stage_start", str "2025-01-02 00:00:00+0000"),
   (str "sleep_stage_end", str "2025-01-02 01:00:00+0000")]

/-- C6 counterexample: the sleep-stage record stageRow0 parses to the date
2025-01-02, strictly outside the window, yet the emitted sleep table
differs depending on its presence (it adds 60 light minutes), refuting the
claim that every out-of-window record contributes nothing to any output
table. -/
theorem C6_window_omission_counterexample :
    parse_date (rowGetS stageRow0 (str "sleep_stage_start") [])
      = some ⟨2025, 1, 2⟩ ∧
    parse_sleep_datetime (rowGetS stageRow0 (str "sleep_stage_start") [])
      = some ⟨⟨2025, 1, 2⟩, 0, 0, 0, some 0⟩ ∧
    parse_sleep_datetime (rowGetS stageRow0 (str "sleep_stage_end") [])
      = some ⟨⟨2025, 1, 2⟩, 1, 0, 0, some 0⟩ ∧
    inWindow w6 ⟨2025, 1, 2⟩ = false ∧
    emitRows (buildSleeps w6 [[sessRow0]]) (stagesAcc (buildSleeps w6 [[sessRow0]]) [[stageRow0]])
      ≠ emitRows (buildSleeps w6 [[sessRow0]]) (stagesAcc (buildSleeps w6 [[sessRow0]]) []) := by
  exact ⟨by decide, by decide, by decide, by decide, by decide⟩

/-- An in-window row carrying every field the readers look at. -/
def rIn : Row :=
  [(str "timestamp", str "2025-03-05"), (str "date", str "2025-03-05"),
   (str "calories", str "10"), (str "weight", str "150"),
   (str "weight grams", str "68000"), (str "sleep_id", str "sX"),
   (str "sleep_start", str "2025-03-05 22:00:00+0000"),
   (str "sleep_end", str "2025-03-06 06:00:00+0000"),
   (str "level", str "SEDENTARY"), (str "light", str "1"), (str "moderate", str "2"),
   (str "very", str "3"), (str "body fat percentage", str "20")]

/-- An out-of-window row (2026-05-01 is outside w2025). -/
def rOut : Row :=
  [(str "timestamp", str "2026-05-01"), (str "date", str "2026-05-01"),
   (str "sleep_start", str "2026-05-01 10:00:00+0000"),
   (str "calories", str "10"), (str "weight grams", str "1")]

theorem C6_window_omission_witness :
    aggFile w2025 (str "calories") false [] ([rIn] ++ rOut :: [])
      = aggFile w2025 (str "calories") false [] ([rIn] ++ []) ∧
    readFallback w2025 [] ([rIn] ++ rOut :: []) = readFallback w2025 [] ([rIn] ++ []) ∧
    runRows (readWeightEntry w2025) [] ([rIn] ++ rOut :: [])
      = runRows (readWeightEntry w2025) [] ([rIn] ++ []) ∧
    runRows (sleepStep w2025) [] ([rIn] ++ rOut :: [])
      = runRows (sleepStep w2025) [] ([rIn] ++ []) := by
  have h := C6_window_omission w2025 rOut [rIn] []
  have h1 := h.1 ⟨2026, 5, 1⟩ (by decide) (by decide)
  refine ⟨(h1.1 (str "calories") false []), (h1.2.2.2.2.2 []), ?_, ?_⟩
  · exact h.2.1 ⟨2026, 5, 1⟩ (by decide) (by decide) []
  · exact h.2.2 ⟨⟨2026, 5, 1⟩, 10, 0, 0, some 0⟩ (by decide) (by decide) []

/-! Digit and fixed-width rendering machinery used to state the parser
claims over all calendar components. -/

/-- The decimal digit character for k (meaningful for k ≤ 9). -/
def digitOf (k : Nat) : Char := Char.ofNat (48 + k)

/-- Two-digit zero-padded decimal rendering. -/
def pad2 (n : Nat) : Str := [digitOf (n / 10), digitOf (n % 10)]

/-- Four-digit zero-padded decimal rendering. -/
def pad4 (n : Nat) : Str := pad2 (n / 100) ++ pad2 (n % 100)

theorem digitVal_digitOf (k : Nat) (h : k ≤ 9) : digitVal (digitOf k) = some k := by
  interval_cases k <;> decide

theorem isDigit_digitOf (k : Nat) (h : k ≤ 9) : (digitOf k).isDigit = true := by
  interval_cases k <;> decide

theorem isSpaceChar_digitOf (k : Nat) (h : k ≤ 9) : isSpaceChar (digitOf k) = false := by
  interval_cases k <;> decide

theorem digitOf_ne (k : Nat) (h : k ≤ 9) (x : Char) (hx : x.isDigit = false) :
    digitOf k ≠ x := by
  intro e
  rw [← e, isDigit_digitOf k h] at hx
  cases hx

theorem digitOf_beq_false (k : Nat) (h : k ≤ 9) (x : Char) (hx : x.isDigit = false) :
    (digitOf k == x) = false :=
  beq_eq_false_iff_ne.mpr (digitOf_ne k h x hx)

theorem pad2_mem (n : Nat) (h : n ≤ 99) (c : Char) (hc : c ∈ pad2 n) :
    ∃ k, k ≤ 9 ∧ c = digitOf k := by
  simp only [pad2, List.mem_cons, List.not_mem_nil, or_false] at hc
  rcases hc with rfl | rfl
  · exact ⟨n / 10, by omega, rfl⟩
  · exact ⟨n % 10, by omega, rfl⟩

theorem pad4_mem (n : Nat) (h : n ≤ 9999) (c : Char) (hc : c ∈ pad4 n) :
    ∃ k, k ≤ 9 ∧ c = digitOf k := by
  simp only [pad4, List.mem_append] at hc
  rcases hc with hc | hc
  · exact pad2_mem _ (by omega) c hc
  · exact pad2_mem _ (by omega) c hc

theorem parse2_pad2 (n : Nat) (h : n ≤ 99) (rest : Str) :
    parse2 (pad2 n ++ rest) = some (n, rest) := by
  have h1 := digitVal_digitOf (n / 10) (by omega)
  have h2 := digitVal_digitOf (n % 10) (by omega)
  simp only [pad2, List.cons_append, List.nil_append, parse2, h1, h2]
  congr 1
  rw [Prod.mk.injEq]
  exact ⟨by omega, rfl⟩

theorem parse4_pad4 (n : Nat) (h : n ≤ 9999) (rest : Str) :
    parse4 (pad4 n ++ rest) = some (n, rest) := by
  have e : pad4 n ++ rest = pad2 (n / 100) ++ (pad2 (n % 100) ++ rest) := by
    simp [pad4, List.append_assoc]
  rw [parse4, e, parse2_pad2 _ (by omega)]
  show (parse2 (pad2 (n % 100) ++ rest)).map (fun q => (100 * (n / 100) + q.1, q.2))
    = some (n, rest)
  rw [parse2_pad2 _ (by omega)]
  show some (100 * (n / 100) + n % 100, rest) = some (n, rest)
  congr 1
  rw [Prod.mk.injEq]
  exact ⟨by omega, rfl⟩

theorem parseNat_pad2 (n : Nat) (h : n ≤ 99) : parseNat (pad2 n) = some n := by
  have h1 := digitVal_digitOf (n / 10) (by omega)
  have h2 := digitVal_digitOf (n % 10) (by omega)
  simp only [parseNat, pad2, List.isEmpty_cons, parseDigitsAux, h1, h2, if_false,
    Bool.false_eq_true]
  congr 1
  omega

theorem parseNat_pad4 (n : Nat) (h : n ≤ 9999) : parseNat (pad4 n) = some n := by
  have h1 := digitVal_digitOf (n / 100 / 10) (by omega)
  have h2 := digitVal_digitOf (n / 100 % 10) (by omega)
  have h3 := digitVal_digitOf (n % 100 / 10) (by omega)
  have h4 := digitVal_digitOf (n % 100 % 10) (by omega)
  simp only [parseNat, pad4, pad2, List.cons_append, List.nil_append, List.isEmpty_cons,
    parseDigitsAux, h1, h2, h3, h4, if_false, Bool.false_eq_true]
  congr 1
  omega

theorem takeWhile_all {p : Char → Bool} : ∀ (A : Str), (∀ c ∈ A, p c = true) →
    A.takeWhile p = A ∧ A.dropWhile p = [] := by
  intro A
  induction A with
  | nil => intro _; exact ⟨rfl, rfl⟩
  | cons a as ih =>
    intro h
    have ha : p a = true := h a (List.mem_cons_self a as)
    have ih' := ih (fun c hc => h c (List.mem_cons_of_mem a hc))
    simp [List.takeWhile_cons, List.dropWhile_cons, ha, ih'.1, ih'.2]

theorem takeWhile_append_stop {p : Char → Bool} (A : Str) (hA : ∀ c ∈ A, p c = true)
    (c : Char) (hc : p c = false) (rest : Str) :
    (A ++ c :: rest).takeWhile p = A ∧ (A ++ c :: rest).dropWhile p = c :: rest := by
  induction A with
  | nil => simp [List.takeWhile_cons, List.dropWhile_cons, hc]
  | cons a as ih =>
    have ha : p a = true := hA a (List.mem_cons_self a as)
    have ih' := ih (fun x hx => hA x (List.mem_cons_of_mem a hx))
    simp [List.takeWhile_cons, List.dropWhile_cons, ha, ih'.1, ih'.2]

theorem dropWhile_id {p : Char → Bool} (cs : Str) (h : ∀ c ∈ cs, p c = false) :
    cs.dropWhile p = cs := by
  cases cs with
  | nil => rfl
  | cons c rest => simp [List.dropWhile_cons, h c (List.mem_cons_self c rest)]

theorem pyStrip_id (cs : Str) (h : ∀ c ∈ cs, isSpaceChar c = false) : pyStrip cs = cs := by
  unfold pyStrip
  rw [dropWhile_id cs h]
  rw [dropWhile_id cs.reverse (fun c hc => h c (List.mem_reverse.mp hc))]
  exact List.reverse_reverse cs

theorem hasChar_eq_false (x : Char) (cs : Str) (h : ∀ c ∈ cs, c ≠ x) :
    hasChar x cs = false := by
  simp only [hasChar, List.any_eq_false]
  intro c hc hbe
  exact h c hc (eq_of_beq hbe)

theorem replaceZ_id (cs : Str) (h : ∀ c ∈ cs, c ≠ 'Z') : replaceZ cs = cs := by
  induction cs with
  | nil => rfl
  | cons c rest ih =>
    have hc : c ≠ 'Z' := h c (List.mem_cons_self c rest)
    simp only [replaceZ, if_neg hc]
    rw [ih (fun x hx => h x (List.mem_cons_of_mem c hx))]

theorem replaceFirstSpaceT_append (A : Str) (hA : ∀ c ∈ A, c ≠ ' ') (B : Str) :
    replaceFirstSpaceT (A ++ ' ' :: B) = A ++ 'T' :: B := by
  induction A with
  | nil => simp [replaceFirstSpaceT]
  | cons a as ih =>
    have ha : a ≠ ' ' := hA a (List.mem_cons_self a as)
    simp only [List.cons_append, replaceFirstSpaceT, if_neg ha]
    rw [List.append_eq, ih (fun x hx => hA x (List.mem_cons_of_mem a hx))]

theorem breakLast_append (sep : Char) (A B : Str) (hB : ∀ c ∈ B, c ≠ sep) :
    breakLast sep (A ++ sep :: B) = some (A, B) := by
  unfold breakLast
  have hrev : (A ++ sep :: B).reverse = B.reverse ++ sep :: A.reverse := by
    simp
  have hall : ∀ c ∈ B.reverse, (fun c => !(c == sep)) c = true := by
    intro c hc
    simp only [Bool.not_eq_true']
    exact beq_eq_false_iff_ne.mpr (hB c (List.mem_reverse.mp hc))
  have hsep : (fun c => !(c == sep)) sep = false := by simp
  have hstop := takeWhile_append_stop B.reverse hall sep hsep A.reverse
  simp only [breakLast]
  rw [hrev, hstop.2]
  simp [hstop.1]

def renderOffset (pos : Bool) (hh mm : Nat) : Str :=
  (if pos then '+' else '-') :: (pad2 hh ++ ':' :: pad2 mm)

theorem pyInt_sign_pad2 (n : Nat) (h : n ≤ 99) :
    pyInt ('+' :: pad2 n) = some (n : Int) ∧ pyInt ('-' :: pad2 n) = some (-(n : Int)) := by
  have hmem : ∀ (sg : Char), isSpaceChar sg = false →
      ∀ c ∈ sg :: pad2 n, isSpaceChar c = false := by
    intro sg hsg c hc
    rcases List.mem_cons.mp hc with rfl | hc
    · exact hsg
    · obtain ⟨k, hk, rfl⟩ := pad2_mem n h c hc
      exact isSpaceChar_digitOf k hk
  constructor
  · have hps : pyStrip ('+' :: pad2 n) = '+' :: pad2 n := pyStrip_id _ (hmem '+' (by decide))
    simp only [pyInt, hps]
    simp [parseNat_pad2 n h]
  · have hps : pyStrip ('-' :: pad2 n) = '-' :: pad2 n := pyStrip_id _ (hmem '-' (by decide))
    simp only [pyInt, hps]
    simp [parseNat_pad2 n h]

theorem offsetHours_renderOffset (pos : Bool) (hh mm : Nat) (hh99 : hh ≤ 99) (mm99 : mm ≤ 99) :
    offsetHours (renderOffset pos hh mm) = if pos then (hh : Int) else -(hh : Int) := by
  have c1 := digitOf_beq_false (hh / 10) (by omega) ':' (by decide)
  have c2 := digitOf_beq_false (hh % 10) (by omega) ':' (by decide)
  have c3 := digitOf_beq_false (mm / 10) (by omega) ':' (by decide)
  have c4 := digitOf_beq_false (mm % 10) (by omega) ':' (by decide)
  cases pos with
  | true =>
    have e : renderOffset true hh mm = '+' :: (pad2 hh ++ ':' :: pad2 mm) := rfl
    rw [e]
    simp only [offsetHours, pad2, List.cons_append, List.nil_append, List.isEmpty_cons,
      Bool.false_eq_true, if_false, List.filter, c1, c2, c3, c4, Bool.not_false,
      List.length_cons, List.length_nil, List.take]
    rw [show (['+', digitOf (hh / 10), digitOf (hh % 10)] : Str) = '+' :: pad2 hh from rfl]
    rw [(pyInt_sign_pad2 hh hh99).1]
    simp
  | false =>
    have e : renderOffset false hh mm = '-' :: (pad2 hh ++ ':' :: pad2 mm) := rfl
    rw [e]
    simp only [offsetHours, pad2, List.cons_append, List.nil_append, List.isEmpty_cons,
      Bool.false_eq_true, if_false, List.filter, c1, c2, c3, c4, Bool.not_false,
      List.length_cons, List.length_nil, List.take]
    rw [show (['-', digitOf (hh / 10), digitOf (hh % 10)] : Str) = '-' :: pad2 hh from rfl]
    rw [(pyInt_sign_pad2 hh hh99).2]

/-- C7: for every emitted sleep row whose stored instants carry a zero
embedded offset (i.e. are UTC, as the source data stores them), the
displayed local start and end equal the UTC instant plus 3600 seconds per
whole hour of the recorded offset string; and parsing of an ±HH:MM offset
string keeps only the signed whole-hour component, truncating the minute
part away. -/
theorem C7_sleep_local_time (stages : List (Str × StageVal)) (sid : Str) (s : Session)
    (edt : DateTime) (h1 : s.startDt.offMin = some 0) (h2 : edt.offMin = some 0) :
    ((mkSleepOut stages sid s edt).startLocalSecs
      = utcSecs s.startDt + 3600 * offsetHours s.startOffset) ∧
    ((mkSleepOut stages sid s edt).endLocalSecs
      = utcSecs edt + 3600 * offsetHours s.endOffset) ∧
    (∀ (pos : Bool) (hh mm : Nat), hh ≤ 99 → mm ≤ 99 →
      offsetHours (renderOffset pos hh mm) = if pos then (hh : Int) else -(hh : Int)) := by
  refine ⟨?_, ?_, fun pos hh mm h3 h4 => offsetHours_renderOffset pos hh mm h3 h4⟩
  · simp [mkSleepOut, utcSecs, h1]
  · simp [mkSleepOut, utcSecs, h2]

/-- A session stored with UTC instants and fractional-hour offset strings. -/
def sess7 : Session :=
  ⟨str "2025-01-01 23:00:00+0000", str "2025-01-02 07:00:00+0000",
   ⟨⟨2025, 1, 1⟩, 23, 0, 0, some 0⟩, some ⟨⟨2025, 1, 2⟩, 7, 0, 0, some 0⟩, 400, 40, 480,
   str "+05:30", str "-05:30"⟩

theorem C7_sleep_local_time_witness :
    ((mkSleepOut [] (str "s1") sess7 ⟨⟨2025, 1, 2⟩, 7, 0, 0, some 0⟩).startLocalSecs
      = utcSecs sess7.startDt + 3600 * offsetHours sess7.startOffset) ∧
    ((mkSleepOut [] (str "s1") sess7 ⟨⟨2025, 1, 2⟩, 7, 0, 0, some 0⟩).endLocalSecs
      = utcSecs ⟨⟨2025, 1, 2⟩, 7, 0, 0, some 0⟩ + 3600 * offsetHours sess7.endOffset) ∧
    offsetHours (renderOffset true 5 30) = 5 ∧ offsetHours (renderOffset false 5 30) = -5 := by
  have h := C7_sleep_local_time [] (str "s1") sess7 ⟨⟨2025, 1, 2⟩, 7, 0, 0, some 0⟩ rfl rfl
  refine ⟨h.1, h.2.1, ?_, ?_⟩
  · have := h.2.2 true 5 30 (by decide) (by decide)
    simpa using this
  · have := h.2.2 false 5 30 (by decide) (by decide)
    simpa using this

theorem pad2_length (n : Nat) : (pad2 n).length = 2 := rfl

theorem pad4_length (n : Nat) : (pad4 n).length = 4 := rfl

theorem pad2_all (n : Nat) (h : n ≤ 99) : ∀ c ∈ pad2 n, c.isDigit = true := by
  intro c hc
  obtain ⟨k, hk, rfl⟩ := pad2_mem n h c hc
  exact isDigit_digitOf k hk

theorem pad4_all (n : Nat) (h : n ≤ 9999) : ∀ c ∈ pad4 n, c.isDigit = true := by
  intro c hc
  obtain ⟨k, hk, rfl⟩ := pad4_mem n h c hc
  exact isDigit_digitOf k hk

/-- ISO encoding YYYY-MM-DD of a calendar day. -/
def encodeISO (y mo d : Nat) : Str := pad4 y ++ ('-' :: (pad2 mo ++ ('-' :: pad2 d)))

/-- Timestamp encoding YYYY-MM-DDT00:00:00 of a calendar day. -/
def encodeTS (y mo d : Nat) : Str := encodeISO y mo d ++ 'T' :: str "00:00:00"

/-- US slash encoding MM/DD/YY of a calendar day. -/
def encodeUS (y mo d : Nat) : Str := pad2 mo ++ ('/' :: (pad2 d ++ ('/' :: pad2 (y % 100))))

theorem hasChar_append (x : Char) (A B : Str) :
    hasChar x (A ++ B) = (hasChar x A || hasChar x B) := by
  simp [hasChar, List.any_append]

theorem encodeISO_mem (y mo d : Nat) (hy : y ≤ 9999) (hmo : mo ≤ 99) (hd : d ≤ 99) :
    ∀ c ∈ encodeISO y mo d, (∃ k, k ≤ 9 ∧ c = digitOf k) ∨ c = '-' := by
  intro c hc
  rcases List.mem_append.mp hc with hc | hc
  · exact Or.inl (pad4_mem y hy c hc)
  · rcases List.mem_cons.mp hc with rfl | hc
    · exact Or.inr rfl
    · rcases List.mem_append.mp hc with hc | hc
      · exact Or.inl (pad2_mem mo hmo c hc)
      · rcases List.mem_cons.mp hc with rfl | hc
        · exact Or.inr rfl
        · exact Or.inl (pad2_mem d hd c hc)

theorem encodeUS_mem (y mo d : Nat) (hmo : mo ≤ 99) (hd : d ≤ 99) :
    ∀ c ∈ encodeUS y mo d, (∃ k, k ≤ 9 ∧ c = digitOf k) ∨ c = '/' := by
  intro c hc
  rcases List.mem_append.mp hc with hc | hc
  · exact Or.inl (pad2_mem mo hmo c hc)
  · rcases List.mem_cons.mp hc with rfl | hc
    · exact Or.inr rfl
    · rcases List.mem_append.mp hc with hc | hc
      · exact Or.inl (pad2_mem d hd c hc)
      · rcases List.mem_cons.mp hc with rfl | hc
        · exact Or.inr rfl
        · exact Or.inl (pad2_mem (y % 100) (by omega) c hc)

theorem strptimeYmd_encodeISO (y mo d : Nat) (hy : y ≤ 9999) (hmo : mo ≤ 99) (hd : d ≤ 99)
    (hv : validDate y mo d = true) :
    strptimeYmd (encodeISO y mo d) = some ⟨y, mo, d⟩ := by
  have dashNotDigit : Char.isDigit '-' = false := by decide
  have s1 := takeWhile_append_stop (pad4 y) (pad4_all y hy) '-' dashNotDigit
    (pad2 mo ++ ('-' :: pad2 d))
  have s2 := takeWhile_append_stop (pad2 mo) (pad2_all mo hmo) '-' dashNotDigit (pad2 d)
  have s3 := takeWhile_all (pad2 d) (pad2_all d hd)
  simp only [encodeISO, strptimeYmd, s1.1, s1.2, s2.1, s2.2, s3.1, s3.2, pad4_length,
    pad2_length, parseNat_pad4 y hy, parseNat_pad2 mo hmo, parseNat_pad2 d hd, hv]
  simp

theorem strptimeYmd_encodeUS (y mo d : Nat) (hmo : mo ≤ 99) :
    strptimeYmd (encodeUS y mo d) = none := by
  have s1 := takeWhile_append_stop (pad2 mo) (pad2_all mo hmo) '/' (by decide)
    (pad2 d ++ ('/' :: pad2 (y % 100)))
  simp only [encodeUS, strptimeYmd, s1.1, s1.2]
  rw [if_neg (show ¬('/' : Char) = '-' by decide)]

theorem strptimeMdy_encodeUS (y mo d : Nat) (hy1 : 1969 ≤ y) (hy2 : y ≤ 2068)
    (hmo : mo ≤ 99) (hd : d ≤ 99) (hv : validDate y mo d = true) :
    strptimeMdy (encodeUS y mo d) = some ⟨y, mo, d⟩ := by
  have slashNotDigit : Char.isDigit '/' = false := by decide
  have s1 := takeWhile_append_stop (pad2 mo) (pad2_all mo hmo) '/' slashNotDigit
    (pad2 d ++ ('/' :: pad2 (y % 100)))
  have s2 := takeWhile_append_stop (pad2 d) (pad2_all d hd) '/' slashNotDigit (pad2 (y % 100))
  have s3 := takeWhile_all (pad2 (y % 100)) (pad2_all (y % 100) (by omega))
  have hyy : (if y % 100 ≤ 68 then 2000 + y % 100 else 1900 + y % 100) = y := by
    by_cases hcase : y % 100 ≤ 68
    · rw [if_pos hcase]; omega
    · rw [if_neg hcase]; omega
  simp only [encodeUS, strptimeMdy, s1.1, s1.2, s2.1, s2.2, s3.1, s3.2, pad2_length,
    parseNat_pad2 mo hmo, parseNat_pad2 d hd, parseNat_pad2 (y % 100) (by omega), hyy, hv]
  simp

theorem parseDatePart_encodeISO (y mo d : Nat) (hy : y ≤ 9999) (hmo : mo ≤ 99) (hd : d ≤ 99)
    (hv : validDate y mo d = true) (rest : Str) :
    parseDatePart (encodeISO y mo d ++ rest) = some (⟨y, mo, d⟩, rest) := by
  have e : encodeISO y mo d ++ rest
      = pad4 y ++ ('-' :: (pad2 mo ++ ('-' :: (pad2 d ++ rest)))) := by
    simp [encodeISO]
  rw [e, parseDatePart, parse4_pad4 y hy]
  simp only [Option.bind, expectChar, if_pos]
  rw [parse2_pad2 mo hmo]
  simp only [Option.bind, expectChar, if_pos]
  rw [parse2_pad2 d hd]
  simp only [Option.bind, hv, if_true]

theorem fromisoformat_encodeTS (y mo d : Nat) (hy : y ≤ 9999) (hmo : mo ≤ 99) (hd : d ≤ 99)
    (hv : validDate y mo d = true) :
    fromisoformat (encodeTS y mo d) = some ⟨⟨y, mo, d⟩, 0, 0, 0, none⟩ := by
  have ht : parseTimePart (str "00:00:00") = some (0, 0, 0, []) := by decide
  rw [encodeTS, fromisoformat, parseDatePart_encodeISO y mo d hy hmo hd hv ('T' :: str "00:00:00")]
  simp only [Option.bind, ht]
  simp [parseTzPart]

/-- Space-freeness, Z-freeness and T-judgments of the three encodings. -/
theorem encodeISO_char_facts (y mo d : Nat) (hy : y ≤ 9999) (hmo : mo ≤ 99) (hd : d ≤ 99) :
    pyStrip (encodeISO y mo d) = encodeISO y mo d ∧
    hasChar 'T' (encodeISO y mo d) = false ∧
    (∀ c ∈ encodeISO y mo d, c ≠ 'Z') := by
  have hmem := encodeISO_mem y mo d hy hmo hd
  refine ⟨pyStrip_id _ ?_, hasChar_eq_false _ _ ?_, ?_⟩
  · intro c hc
    rcases hmem c hc with ⟨k, hk, rfl⟩ | rfl
    · exact isSpaceChar_digitOf k hk
    · decide
  · intro c hc
    rcases hmem c hc with ⟨k, hk, rfl⟩ | rfl
    · exact digitOf_ne k hk 'T' (by decide)
    · decide
  · intro c hc
    rcases hmem c hc with ⟨k, hk, rfl⟩ | rfl
    · exact digitOf_ne k hk 'Z' (by decide)
    · decide

theorem encodeTS_char_facts (y mo d : Nat) (hy : y ≤ 9999) (hmo : mo ≤ 99) (hd : d ≤ 99) :
    pyStrip (encodeTS y mo d) = encodeTS y mo d ∧
    hasChar 'T' (encodeTS y mo d) = true ∧
    replaceZ (encodeTS y mo d) = encodeTS y mo d := by
  have hiso := encodeISO_char_facts y mo d hy hmo hd
  have hmem := encodeISO_mem y mo d hy hmo hd
  refine ⟨pyStrip_id _ ?_, ?_, replaceZ_id _ ?_⟩
  · intro c hc
    rcases List.mem_append.mp hc with h1 | h1
    · rcases hmem c h1 with ⟨k, hk, rfl⟩ | rfl
      · exact isSpaceChar_digitOf k hk
      · decide
    · clear hc
      revert c
      decide
  · rw [encodeTS, hasChar_append, hiso.2.1]
    decide
  · intro c hc
    rcases List.mem_append.mp hc with h1 | h1
    · exact hiso.2.2 c h1
    · clear hc
      revert c
      decide

theorem encodeUS_char_facts (y mo d : Nat) (hmo : mo ≤ 99) (hd : d ≤ 99) :
    pyStrip (encodeUS y mo d) = encodeUS y mo d ∧
    hasChar 'T' (encodeUS y mo d) = false := by
  have hmem := encodeUS_mem y mo d hmo hd
  refine ⟨pyStrip_id _ ?_, hasChar_eq_false _ _ ?_⟩
  · intro c hc
    rcases hmem c hc with ⟨k, hk, rfl⟩ | rfl
    · exact isSpaceChar_digitOf k hk
    · decide
  · intro c hc
    rcases hmem c hc with ⟨k, hk, rfl⟩ | rfl
    · exact digitOf_ne k hk 'T' (by decide)
    · decide

/-- C8: every calendar day of the two-digit-year era (1969-2068) parses to
the same date from all three supported textual encodings: timestamp with
time designator, ISO YYYY-MM-DD, and US MM/DD/YY. -/
theorem C8_date_encoding_agreement (y mo d : Nat) (hy1 : 1969 ≤ y) (hy2 : y ≤ 2068)
    (hv : validDate y mo d = true) :
    parse_date (encodeTS y mo d) = some ⟨y, mo, d⟩ ∧
    parse_date (encodeISO y mo d) = some ⟨y, mo, d⟩ ∧
    parse_date (encodeUS y mo d) = some ⟨y, mo, d⟩ := by
  have hy : y ≤ 9999 := by omega
  have hb := of_decide_eq_true hv
  have hmo : mo ≤ 99 := by omega
  have hdd : d ≤ 31 := by
    have := hb.2.2.2
    have h31 : daysInMonth y mo ≤ 31 := by
      unfold daysInMonth
      split
      · split <;> omega
      · split <;> omega
    omega
  have hd : d ≤ 99 := by omega
  refine ⟨?_, ?_, ?_⟩
  · have hts := encodeTS_char_facts y mo d hy hmo hd
    rw [parse_date, hts.1, hts.2.1, if_pos rfl, hts.2.2,
      fromisoformat_encodeTS y mo d hy hmo hd hv]
    rfl
  · have hiso := encodeISO_char_facts y mo d hy hmo hd
    rw [parse_date, hiso.1, hiso.2.1]
    simp only [Bool.false_eq_true, if_false]
    rw [strptimeYmd_encodeISO y mo d hy hmo hd hv]
  · have hus := encodeUS_char_facts y mo d hmo hd
    rw [parse_date, hus.1, hus.2]
    simp only [Bool.false_eq_true, if_false]
    rw [strptimeYmd_encodeUS y mo d hmo, strptimeMdy_encodeUS y mo d hy1 hy2 hmo hd hv]

theorem C8_date_encoding_agreement_witness :
    parse_date (encodeTS 2025 3 7) = some ⟨2025, 3, 7⟩ ∧
    parse_date (encodeISO 2025 3 7) = some ⟨2025, 3, 7⟩ ∧
    parse_date (encodeUS 2025 3 7) = some ⟨2025, 3, 7⟩ :=
  C8_date_encoding_agreement 2025 3 7 (by decide) (by decide) (by decide)

theorem parse2_pad2_nil (n : Nat) (h : n ≤ 99) : parse2 (pad2 n) = some (n, []) := by
  have := parse2_pad2 n h []
  simpa using this

theorem parseOffMinutes_colon (oh om : Nat) (h1 : oh ≤ 23) (h2 : om ≤ 59) :
    parseOffMinutes (pad2 oh ++ (':' :: pad2 om)) = some ((oh : Int) * 60 + om) := by
  rw [parseOffMinutes, parse2_pad2 oh (by omega)]
  simp only [Option.bind]
  simp [parse2_pad2_nil om (by omega), h1, h2]

theorem parseOffMinutes_nocolon (oh om : Nat) (h1 : oh ≤ 23) (h2 : om ≤ 59) :
    parseOffMinutes (pad2 oh ++ pad2 om) = some ((oh : Int) * 60 + om) := by
  rw [parseOffMinutes, parse2_pad2 oh (by omega)]
  simp only [Option.bind, pad2]
  rw [if_neg (digitOf_ne (om / 10) (by omega) ':' (by decide))]
  rw [show ([digitOf (om / 10), digitOf (om % 10)] : Str) = pad2 om from rfl,
    parse2_pad2_nil om (by omega)]
  simp [h1, h2]

theorem parseTimePart_hms (h mi s : Nat) (hh : h ≤ 99) (hmi : mi ≤ 99) (hs : s ≤ 99)
    (rest : Str) :
    parseTimePart (pad2 h ++ (':' :: (pad2 mi ++ (':' :: (pad2 s ++ rest)))))
      = some (h, mi, s, rest) := by
  rw [parseTimePart, parse2_pad2 h (by omega)]
  simp [parse2_pad2 mi (by omega), parse2_pad2 s (by omega)]

theorem parseTzPart_plus (rest : Str) :
    parseTzPart ('+' :: rest) = (parseOffMinutes rest).map (fun m => some m) := by
  rw [parseTzPart, if_pos rfl]

theorem parseTzPart_minus (rest : Str) :
    parseTzPart ('-' :: rest) = (parseOffMinutes rest).map (fun m => some (-m)) := by
  rw [parseTzPart, if_neg (by decide), if_pos rfl]

theorem fromisoformat_full (y mo d h mi s : Nat) (hy : y ≤ 9999) (hmo : mo ≤ 99) (hd : d ≤ 99)
    (hv : validDate y mo d = true) (hh : h ≤ 23) (hmi : mi ≤ 59) (hs : s ≤ 59) (tz : Str)
    (off : Option Int) (htz : parseTzPart tz = some off) :
    fromisoformat (encodeISO y mo d
        ++ ('T' :: (pad2 h ++ (':' :: (pad2 mi ++ (':' :: (pad2 s ++ tz)))))))
      = some ⟨⟨y, mo, d⟩, h, mi, s, off⟩ := by
  rw [fromisoformat, parseDatePart_encodeISO y mo d hy hmo hd hv _]
  simp only [Option.bind]
  rw [parseTimePart_hms h mi s (by omega) (by omega) (by omega) tz]
  simp only [Option.bind]
  rw [if_pos ⟨hh, hmi, hs⟩, htz]
  rfl

theorem dropWhile_eq_self_of_head {p : Char → Bool} (cs : Str)
    (h : ∀ c ∈ cs.take 1, p c = false) : cs.dropWhile p = cs := by
  cases cs with
  | nil => rfl
  | cons c rest => simp [List.dropWhile_cons, h c (by simp)]

theorem pyStrip_ends (cs : Str) (h1 : ∀ c ∈ cs.take 1, isSpaceChar c = false)
    (h2 : ∀ c ∈ cs.reverse.take 1, isSpaceChar c = false) : pyStrip cs = cs := by
  unfold pyStrip
  rw [dropWhile_eq_self_of_head cs h1]
  rw [dropWhile_eq_self_of_head cs.reverse h2, List.reverse_reverse]

theorem reverse_take1_pad2 (A : Str) (n : Nat) :
    ((A ++ pad2 n).reverse).take 1 = [digitOf (n % 10)] := by
  simp [pad2, List.reverse_append, List.take]

/-- The textual sleep instant YYYY-MM-DD HH:MM:SS (space separated). -/
def encodeSleepTime (y mo d h mi s : Nat) : Str :=
  encodeISO y mo d ++ (' ' :: (pad2 h ++ (':' :: (pad2 mi ++ (':' :: pad2 s)))))

/-- The textual sleep instant with trailing signed 4-digit offset, the
form 'YYYY-MM-DD HH:MM:SS±HHMM' the UserSleeps files use. -/
def encodeSleepTS (y mo d h mi s : Nat) (pos : Bool) (oh om : Nat) : Str :=
  encodeSleepTime y mo d h mi s ++ ((if pos then '+' else '-') :: (pad2 oh ++ pad2 om))

theorem encodeSleepTime_mem (y mo d h mi s : Nat) (hy : y ≤ 9999) (hmo : mo ≤ 99)
    (hd : d ≤ 99) (hh : h ≤ 99) (hmi : mi ≤ 99) (hs : s ≤ 99) :
    ∀ c ∈ encodeSleepTime y mo d h mi s,
      (∃ k, k ≤ 9 ∧ c = digitOf k) ∨ c = '-' ∨ c = ' ' ∨ c = ':' := by
  intro c hc
  rcases List.mem_append.mp hc with h1 | h1
  · rcases encodeISO_mem y mo d hy hmo hd c h1 with hk | rfl
    · exact Or.inl hk
    · exact Or.inr (Or.inl rfl)
  · rcases List.mem_cons.mp h1 with rfl | h1
    · exact Or.inr (Or.inr (Or.inl rfl))
    · rcases List.mem_append.mp h1 with h2 | h2
      · exact Or.inl (pad2_mem h hh c h2)
      · rcases List.mem_cons.mp h2 with rfl | h2
        · exact Or.inr (Or.inr (Or.inr rfl))
        · rcases List.mem_append.mp h2 with h3 | h3
          · exact Or.inl (pad2_mem mi hmi c h3)
          · rcases List.mem_cons.mp h3 with rfl | h3
            · exact Or.inr (Or.inr (Or.inr rfl))
            · exact Or.inl (pad2_mem s hs c h3)

theorem encodeSleepTime_ne (y mo d h mi s : Nat) (hy : y ≤ 9999) (hmo : mo ≤ 99)
    (hd : d ≤ 99) (hh : h ≤ 99) (hmi : mi ≤ 99) (hs : s ≤ 99) (x : Char)
    (hx : x.isDigit = false) (h1 : x ≠ '-') (h2 : x ≠ ' ') (h3 : x ≠ ':') :
    ∀ c ∈ encodeSleepTime y mo d h mi s, c ≠ x := by
  intro c hc
  rcases encodeSleepTime_mem y mo d h mi s hy hmo hd hh hmi hs c hc with
    ⟨k, hk, rfl⟩ | rfl | rfl | rfl
  · exact digitOf_ne k hk x hx
  · exact fun e => h1 e.symm
  · exact fun e => h2 e.symm
  · exact fun e => h3 e.symm

theorem signTz_ne (sg : Char) (oh om : Nat) (hoh : oh ≤ 99) (hom : om ≤ 99) (x : Char)
    (hx : x.isDigit = false) (h1 : x ≠ sg) :
    ∀ c ∈ sg :: (pad2 oh ++ pad2 om), c ≠ x := by
  intro c hc
  rcases List.mem_cons.mp hc with rfl | hc
  · exact fun e => h1 e.symm
  · rcases List.mem_append.mp hc with hc | hc
    · obtain ⟨k, hk, rfl⟩ := pad2_mem oh hoh c hc
      exact digitOf_ne k hk x hx
    · obtain ⟨k, hk, rfl⟩ := pad2_mem om hom c hc
      exact digitOf_ne k hk x hx

theorem normalizeSleepStr_pos (y mo d h mi s oh om : Nat) (hy : y ≤ 9999) (hmo : mo ≤ 99)
    (hd : d ≤ 99) (hh : h ≤ 99) (hmi : mi ≤ 99) (hs : s ≤ 99) (hoh : oh ≤ 99) (hom : om ≤ 99) :
    normalizeSleepStr (encodeSleepTS y mo d h mi s true oh om)
      = encodeISO y mo d ++ ('T' :: (pad2 h ++ (':' :: (pad2 mi ++ (':' :: (pad2 s
          ++ ('+' :: (pad2 oh ++ (':' :: pad2 om))))))))) := by
  have e1 : encodeSleepTS y mo d h mi s true oh om
      = encodeSleepTime y mo d h mi s ++ ('+' :: (pad2 oh ++ pad2 om)) := rfl
  have hTne : ∀ c ∈ encodeSleepTS y mo d h mi s true oh om, c ≠ 'T' := by
    intro c hc
    rw [e1] at hc
    rcases List.mem_append.mp hc with hc | hc
    · exact encodeSleepTime_ne y mo d h mi s hy hmo hd hh hmi hs 'T'
        (by decide) (by decide) (by decide) (by decide) c hc
    · exact signTz_ne '+' oh om hoh hom 'T' (by decide) (by decide) c hc
  have hT : hasChar 'T' (encodeSleepTS y mo d h mi s true oh om) = false :=
    hasChar_eq_false _ _ hTne
  have hplus : hasChar '+' (encodeSleepTS y mo d h mi s true oh om) = true := by
    rw [e1, hasChar_append]
    have h2 : hasChar '+' ('+' :: (pad2 oh ++ pad2 om)) = true := by simp [hasChar]
    rw [h2, Bool.or_true]
  have htzne : ∀ c ∈ pad2 oh ++ pad2 om, c ≠ '+' := by
    intro c hc
    rcases List.mem_append.mp hc with hc | hc
    · obtain ⟨k, hk, rfl⟩ := pad2_mem oh hoh c hc
      exact digitOf_ne k hk '+' (by decide)
    · obtain ⟨k, hk, rfl⟩ := pad2_mem om hom c hc
      exact digitOf_ne k hk '+' (by decide)
  have hspace : ∀ c ∈ encodeISO y mo d, c ≠ ' ' := by
    intro c hc
    rcases encodeISO_mem y mo d hy hmo hd c hc with ⟨k, hk, rfl⟩ | rfl
    · exact digitOf_ne k hk ' ' (by decide)
    · decide
  unfold normalizeSleepStr
  rw [hplus, hT]
  simp only [Bool.not_false, Bool.and_true, if_true]
  rw [e1, breakLast_append '+' _ _ htzne]
  have hlen : (pad2 oh ++ pad2 om).length = 4 := by simp [pad2]
  simp only [hlen, if_true]
  have htake : (pad2 oh ++ pad2 om).take 2 = pad2 oh := rfl
  have hdrop : (pad2 oh ++ pad2 om).drop 2 = pad2 om := rfl
  rw [htake, hdrop]
  have e2 : encodeSleepTime y mo d h mi s ++ ('+' :: (pad2 oh ++ (':' :: pad2 om)))
      = encodeISO y mo d ++ (' ' :: ((pad2 h ++ (':' :: (pad2 mi ++ (':' :: pad2 s))))
          ++ ('+' :: (pad2 oh ++ (':' :: pad2 om))))) := by
    simp [encodeSleepTime, List.append_assoc]
  rw [e2, replaceFirstSpaceT_append _ hspace _]
  simp [List.append_assoc]

theorem normalizeSleepStr_noplus (cs : Str) (hplus : hasChar '+' cs = false)
    (hT : hasChar 'T' cs = false) : normalizeSleepStr cs = replaceFirstSpaceT cs := by
  unfold normalizeSleepStr
  rw [hplus, hT]
  simp

theorem normalizeSleepStr_minus (y mo d h mi s oh om : Nat) (hy : y ≤ 9999) (hmo : mo ≤ 99)
    (hd : d ≤ 99) (hh : h ≤ 99) (hmi : mi ≤ 99) (hs : s ≤ 99) (hoh : oh ≤ 99) (hom : om ≤ 99) :
    normalizeSleepStr (encodeSleepTS y mo d h mi s false oh om)
      = encodeISO y mo d ++ ('T' :: (pad2 h ++ (':' :: (pad2 mi ++ (':' :: (pad2 s
          ++ ('-' :: (pad2 oh ++ pad2 om)))))))) := by
  have e1 : encodeSleepTS y mo d h mi s false oh om
      = encodeSleepTime y mo d h mi s ++ ('-' :: (pad2 oh ++ pad2 om)) := rfl
  have hboth : ∀ (x : Char), x.isDigit = false → x ≠ '-' → x ≠ ' ' → x ≠ ':' →
      ∀ c ∈ encodeSleepTS y mo d h mi s false oh om, c ≠ x := by
    intro x hx hx1 hx2 hx3 c hc
    rw [e1] at hc
    rcases List.mem_append.mp hc with hc | hc
    · exact encodeSleepTime_ne y mo d h mi s hy hmo hd hh hmi hs x hx hx1 hx2 hx3 c hc
    · exact signTz_ne '-' oh om hoh hom x hx (fun e => hx1 e) c hc
  have hspace : ∀ c ∈ encodeISO y mo d, c ≠ ' ' := by
    intro c hc
    rcases encodeISO_mem y mo d hy hmo hd c hc with ⟨k, hk, rfl⟩ | rfl
    · exact digitOf_ne k hk ' ' (by decide)
    · decide
  rw [normalizeSleepStr_noplus _
    (hasChar_eq_false _ _ (hboth '+' (by decide) (by decide) (by decide) (by decide)))
    (hasChar_eq_false _ _ (hboth 'T' (by decide) (by decide) (by decide) (by decide)))]
  have e2 : encodeSleepTS y mo d h mi s false oh om
      = encodeISO y mo d ++ (' ' :: ((pad2 h ++ (':' :: (pad2 mi ++ (':' :: pad2 s))))
          ++ ('-' :: (pad2 oh ++ pad2 om)))) := by
    rw [e1]
    simp [encodeSleepTime, List.append_assoc]
  rw [e2, replaceFirstSpaceT_append _ hspace _]
  simp [List.append_assoc]

theorem normalizeSleepStr_z (y mo d h mi s : Nat) (hy : y ≤ 9999) (hmo : mo ≤ 99)
    (hd : d ≤ 99) (hh : h ≤ 99) (hmi : mi ≤ 99) (hs : s ≤ 99) :
    normalizeSleepStr (encodeSleepTime y mo d h mi s ++ ['Z'])
      = encodeISO y mo d ++ ('T' :: (pad2 h ++ (':' :: (pad2 mi ++ (':' :: (pad2 s
          ++ ['Z'])))))) := by
  have hboth : ∀ (x : Char), x.isDigit = false → x ≠ '-' → x ≠ ' ' → x ≠ ':' → x ≠ 'Z' →
      ∀ c ∈ encodeSleepTime y mo d h mi s ++ ['Z'], c ≠ x := by
    intro x hx hx1 hx2 hx3 hx4 c hc
    rcases List.mem_append.mp hc with hc | hc
    · exact encodeSleepTime_ne y mo d h mi s hy hmo hd hh hmi hs x hx hx1 hx2 hx3 c hc
    · rcases List.mem_singleton.mp hc with rfl
      exact fun e => hx4 e.symm
  have hspace : ∀ c ∈ encodeISO y mo d, c ≠ ' ' := by
    intro c hc
    rcases encodeISO_mem y mo d hy hmo hd c hc with ⟨k, hk, rfl⟩ | rfl
    · exact digitOf_ne k hk ' ' (by decide)
    · decide
  rw [normalizeSleepStr_noplus _
    (hasChar_eq_false _ _ (hboth '+' (by decide) (by decide) (by decide) (by decide) (by decide)))
    (hasChar_eq_false _ _ (hboth 'T' (by decide) (by decide) (by decide) (by decide) (by decide)))]
  have e2 : encodeSleepTime y mo d h mi s ++ ['Z']
      = encodeISO y mo d ++ (' ' :: ((pad2 h ++ (':' :: (pad2 mi ++ (':' :: pad2 s))))
          ++ ['Z'])) := by
    simp [encodeSleepTime, List.append_assoc]
  rw [e2, replaceFirstSpaceT_append _ hspace _]
  simp [List.append_assoc]

theorem replaceZ_append_noZ (A B : Str) (hA : ∀ c ∈ A, c ≠ 'Z') :
    replaceZ (A ++ B) = A ++ replaceZ B := by
  induction A with
  | nil => rfl
  | cons a as ih =>
    have ha : a ≠ 'Z' := hA a (List.mem_cons_self a as)
    simp only [List.cons_append, replaceZ, if_neg ha]
    rw [List.append_eq, ih (fun x hx => hA x (List.mem_cons_of_mem a hx))]

theorem normalizedSleep_ne (y mo d h mi s : Nat) (hy : y ≤ 9999) (hmo : mo ≤ 99) (hd : d ≤ 99)
    (hh : h ≤ 99) (hmi : mi ≤ 99) (hs : s ≤ 99) (tail : Str) (x : Char)
    (hx : x.isDigit = false) (h1 : x ≠ '-') (h2 : x ≠ 'T') (h3 : x ≠ ':')
    (htail : ∀ c ∈ tail, c ≠ x) :
    ∀ c ∈ encodeISO y mo d
        ++ ('T' :: (pad2 h ++ (':' :: (pad2 mi ++ (':' :: (pad2 s ++ tail)))))), c ≠ x := by
  intro c hc
  rcases List.mem_append.mp hc with hc | hc
  · rcases encodeISO_mem y mo d hy hmo hd c hc with ⟨k, hk, rfl⟩ | rfl
    · exact digitOf_ne k hk x hx
    · exact fun e => h1 e.symm
  · rcases List.mem_cons.mp hc with rfl | hc
    · exact fun e => h2 e.symm
    · rcases List.mem_append.mp hc with hc | hc
      · obtain ⟨k, hk, rfl⟩ := pad2_mem h hh c hc
        exact digitOf_ne k hk x hx
      · rcases List.mem_cons.mp hc with rfl | hc
        · exact fun e => h3 e.symm
        · rcases List.mem_append.mp hc with hc | hc
          · obtain ⟨k, hk, rfl⟩ := pad2_mem mi hmi c hc
            exact digitOf_ne k hk x hx
          · rcases List.mem_cons.mp hc with rfl | hc
            · exact fun e => h3 e.symm
            · rcases List.mem_append.mp hc with hc | hc
              · obtain ⟨k, hk, rfl⟩ := pad2_mem s hs c hc
                exact digitOf_ne k hk x hx
              · exact htail c hc

theorem pyStrip_encodeSleepTS (y mo d h mi s oh om : Nat) (hy : y ≤ 9999) (pos : Bool) :
    pyStrip (encodeSleepTS y mo d h mi s pos oh om) = encodeSleepTS y mo d h mi s pos oh om := by
  apply pyStrip_ends
  · intro c hc
    have e : (encodeSleepTS y mo d h mi s pos oh om).take 1 = [digitOf (y / 100 / 10)] := rfl
    rw [e] at hc
    rcases List.mem_singleton.mp hc with rfl
    exact isSpaceChar_digitOf _ (by omega)
  · intro c hc
    have e : encodeSleepTS y mo d h mi s pos oh om
        = (encodeSleepTime y mo d h mi s ++ ((if pos then '+' else '-') :: pad2 oh))
          ++ pad2 om := by
      simp [encodeSleepTS, List.append_assoc]
    rw [e, reverse_take1_pad2] at hc
    rcases List.mem_singleton.mp hc with rfl
    exact isSpaceChar_digitOf _ (by omega)

theorem pyStrip_encodeSleepZ (y mo d h mi s : Nat) (hy : y ≤ 9999) :
    pyStrip (encodeSleepTime y mo d h mi s ++ ['Z'])
      = encodeSleepTime y mo d h mi s ++ ['Z'] := by
  apply pyStrip_ends
  · intro c hc
    have e : (encodeSleepTime y mo d h mi s ++ ['Z']).take 1 = [digitOf (y / 100 / 10)] := rfl
    rw [e] at hc
    rcases List.mem_singleton.mp hc with rfl
    exact isSpaceChar_digitOf _ (by omega)
  · intro c hc
    have e : (encodeSleepTime y mo d h mi s ++ ['Z']).reverse.take 1 = ['Z'] := by
      simp [List.reverse_append, List.take]
    rw [e] at hc
    rcases List.mem_singleton.mp hc with rfl
    decide

theorem posTzColon_ne_Z (oh om : Nat) (hoh : oh ≤ 99) (hom : om ≤ 99) :
    ∀ c ∈ ('+' :: (pad2 oh ++ (':' :: pad2 om))), c ≠ 'Z' := by
  intro c hc
  rcases List.mem_cons.mp hc with rfl | hc
  · decide
  · rcases List.mem_append.mp hc with hc | hc
    · obtain ⟨k, hk, rfl⟩ := pad2_mem oh hoh c hc
      exact digitOf_ne k hk 'Z' (by decide)
    · rcases List.mem_cons.mp hc with rfl | hc
      · decide
      · obtain ⟨k, hk, rfl⟩ := pad2_mem om hom c hc
        exact digitOf_ne k hk 'Z' (by decide)

/-- C5 (amended): for sleep timestamps YYYY-MM-DD HH:MM:SS±HHMM the
normalizer inserts a colon into the 4-digit offset only for a PLUS sign;
for a minus sign it only replaces the first space with the time designator
and leaves the offset colon-less (the subsequent ISO parse still accepts
it); a trailing literal Z is treated as zero offset, and an unparseable
string yields none rather than an exception. -/
theorem C5_sleep_normalizer (y mo d h mi s oh om : Nat) (hy : y ≤ 9999)
    (hv : validDate y mo d = true) (hh : h ≤ 23) (hmi : mi ≤ 59) (hs : s ≤ 59)
    (hoh : oh ≤ 23) (hom : om ≤ 59) :
    (normalizeSleepStr (encodeSleepTS y mo d h mi s true oh om)
      = encodeISO y mo d ++ ('T' :: (pad2 h ++ (':' :: (pad2 mi ++ (':' :: (pad2 s
          ++ ('+' :: (pad2 oh ++ (':' :: pad2 om)))))))))) ∧
    (parse_sleep_datetime (encodeSleepTS y mo d h mi s true oh om)
      = some ⟨⟨y, mo, d⟩, h, mi, s, some ((oh : Int) * 60 + om)⟩) ∧
    (normalizeSleepStr (encodeSleepTS y mo d h mi s false oh om)
      = encodeISO y mo d ++ ('T' :: (pad2 h ++ (':' :: (pad2 mi ++ (':' :: (pad2 s
          ++ ('-' :: (pad2 oh ++ pad2 om))))))))) ∧
    (parse_sleep_datetime (encodeSleepTS y mo d h mi s false oh om)
      = some ⟨⟨y, mo, d⟩, h, mi, s, some (-((oh : Int) * 60 + om))⟩) ∧
    (parse_sleep_datetime (encodeSleepTime y mo d h mi s ++ ['Z'])
      = some ⟨⟨y, mo, d⟩, h, mi, s, some 0⟩) ∧
    parse_sleep_datetime (str "garbage") = none := by
  have hb := of_decide_eq_true hv
  have hmo : mo ≤ 99 := by omega
  have hdd : daysInMonth y mo ≤ 31 := by
    unfold daysInMonth
    split
    · split <;> omega
    · split <;> omega
  have hd : d ≤ 99 := by omega
  have hh99 : h ≤ 99 := by omega
  have hmi99 : mi ≤ 99 := by omega
  have hs99 : s ≤ 99 := by omega
  have hoh99 : oh ≤ 99 := by omega
  have hom99 : om ≤ 99 := by omega
  have hnp := normalizeSleepStr_pos y mo d h mi s oh om hy hmo hd hh99 hmi99 hs99 hoh99 hom99
  have hnm := normalizeSleepStr_minus y mo d h mi s oh om hy hmo hd hh99 hmi99 hs99 hoh99 hom99
  refine ⟨hnp, ?_, hnm, ?_, ?_, by decide⟩
  · rw [parse_sleep_datetime, pyStrip_encodeSleepTS y mo d h mi s oh om hy true, hnp]
    rw [replaceZ_id _ (normalizedSleep_ne y mo d h mi s hy hmo hd hh99 hmi99 hs99 _ 'Z'
      (by decide) (by decide) (by decide) (by decide)
      (posTzColon_ne_Z oh om hoh99 hom99))]
    rw [fromisoformat_full y mo d h mi s hy hmo hd hv hh hmi hs _
      (some ((oh : Int) * 60 + om)) ?htz]
    case htz =>
      rw [parseTzPart_plus, parseOffMinutes_colon oh om hoh hom]
      rfl
  · rw [parse_sleep_datetime, pyStrip_encodeSleepTS y mo d h mi s oh om hy false, hnm]
    rw [replaceZ_id _ (normalizedSleep_ne y mo d h mi s hy hmo hd hh99 hmi99 hs99 _ 'Z'
      (by decide) (by decide) (by decide) (by decide)
      (signTz_ne '-' oh om hoh99 hom99 'Z' (by decide) (by decide)))]
    rw [fromisoformat_full y mo d h mi s hy hmo hd hv hh hmi hs _
      (some (-((oh : Int) * 60 + om))) ?htzm]
    case htzm =>
      rw [parseTzPart_minus, parseOffMinutes_nocolon oh om hoh hom]
      rfl
  · rw [parse_sleep_datetime, pyStrip_encodeSleepZ y mo d h mi s hy,
      normalizeSleepStr_z y mo d h mi s hy hmo hd hh99 hmi99 hs99]
    have eZ : encodeISO y mo d ++ ('T' :: (pad2 h ++ (':' :: (pad2 mi ++ (':' :: (pad2 s
        ++ ['Z']))))))
        = (encodeISO y mo d ++ ('T' :: (pad2 h ++ (':' :: (pad2 mi ++ (':' :: pad2 s))))))
          ++ ['Z'] := by
      simp [List.append_assoc]
    rw [eZ, replaceZ_append_noZ _ _ ?noZ]
    case noZ =>
      intro c hc
      apply normalizedSleep_ne y mo d h mi s hy hmo hd hh99 hmi99 hs99 [] 'Z'
        (by decide) (by decide) (by decide) (by decide) (by simp) c
      simpa using hc
    have eB : replaceZ ['Z'] = '+' :: (pad2 0 ++ (':' :: pad2 0)) := rfl
    rw [eB]
    have eA : (encodeISO y mo d ++ ('T' :: (pad2 h ++ (':' :: (pad2 mi ++ (':' :: pad2 s))))))
        ++ ('+' :: (pad2 0 ++ (':' :: pad2 0)))
        = encodeISO y mo d ++ ('T' :: (pad2 h ++ (':' :: (pad2 mi ++ (':' :: (pad2 s
            ++ ('+' :: (pad2 0 ++ (':' :: pad2 0))))))))) := by
      simp [List.append_assoc]
    rw [eA, fromisoformat_full y mo d h mi s hy hmo hd hv hh hmi hs _ (some 0) ?htzz]
    case htzz =>
      rw [parseTzPart_plus, parseOffMinutes_colon 0 0 (by omega) (by omega)]
      simp

/-- C5 counterexample: on a minus-sign 4-digit offset the normalizer does
not insert a colon (refuting the claim's 'either sign'); it only replaces
the first space with the time designator. -/
theorem C5_sleep_normalizer_counterexample :
    normalizeSleepStr (str "2025-12-03 21:12:30-0500") = str "2025-12-03T21:12:30-0500" ∧
    normalizeSleepStr (str "2025-12-03 21:12:30-0500") ≠ str "2025-12-03T21:12:30-05:00" := by
  exact ⟨by decide, by decide⟩

theorem C5_sleep_normalizer_witness :
    (normalizeSleepStr (encodeSleepTS 2025 12 3 21 12 30 true 5 30)
      = encodeISO 2025 12 3 ++ ('T' :: (pad2 21 ++ (':' :: (pad2 12 ++ (':' :: (pad2 30
          ++ ('+' :: (pad2 5 ++ (':' :: pad2 30)))))))))) ∧
    (parse_sleep_datetime (encodeSleepTS 2025 12 3 21 12 30 true 5 30)
      = some ⟨⟨2025, 12, 3⟩, 21, 12, 30, some ((5 : Int) * 60 + 30)⟩) ∧
    (normalizeSleepStr (encodeSleepTS 2025 12 3 21 12 30 false 5 30)
      = encodeISO 2025 12 3 ++ ('T' :: (pad2 21 ++ (':' :: (pad2 12 ++ (':' :: (pad2 30
          ++ ('-' :: (pad2 5 ++ pad2 30))))))))) ∧
    (parse_sleep_datetime (encodeSleepTS 2025 12 3 21 12 30 false 5 30)
      = some ⟨⟨2025, 12, 3⟩, 21, 12, 30, some (-((5 : Int) * 60 + 30))⟩) ∧
    (parse_sleep_datetime (encodeSleepTime 2025 12 3 21 12 30 ++ ['Z'])
      = some ⟨⟨2025, 12, 3⟩, 21, 12, 30, some 0⟩) ∧
    parse_sleep_datetime (str "garbage") = none :=
  C5_sleep_normalizer 2025 12 3 21 12 30 5 30 (by decide) (by decide) (by decide)
    (by decide) (by decide) (by decide) (by decide)
